import Mathlib

/-!
# LTR329 ambient-light sensor driver

A shallow embedding of `LTR329.cpp` / `LTR329.h`.

* Bytes and 16-bit words are natural numbers; every assignment to a `byte` is
  reduced `% 256` and every assignment to a `uint16_t` is reduced `% 65536`.
  `int` is taken to be at least 32 bits wide (the sketch includes `<string>`,
  which the 16-bit AVR cores do not ship), so `_ch0 + _ch1` does not wrap
  unless it is stored in a `uint16_t`.
* The two-wire bus is an environment: a `TwoWire` answers every transaction as
  a function of the whole bus history, so it stands for any deterministic
  device on the bus.  The history is kept in the driver state (`trace`, newest
  operation first).
* `delay` and `Serial.print` have no effect on the driver state and are left
  out.
* The polling loops of `readData` / `getData` have no exit on failure; they
  take a bound on the number of polls and yield `none` when it is exhausted.
* `double` arithmetic is carried out exactly over `ℚ`; rounding is not
  modelled.  Division by the `0.0` entries of `_gainfactor` is non-finite and
  is represented by `Double.nonFinite`.
-/

set_option maxRecDepth 8000

namespace LTR329

/-! ## Register addresses and constants (`LTR329.h`) -/

def LTR329_CONTR : Nat := 0x80
def LTR329_MEAS_RATE : Nat := 0x85
def LTR329_PART_ID : Nat := 0x86
def LTR329_MANUFAC_ID : Nat := 0x87
def LTR329_DATA_CH1_0 : Nat := 0x88
def LTR329_DATA_CH1_1 : Nat := 0x89
def LTR329_DATA_CH0_0 : Nat := 0x8A
def LTR329_DATA_CH0_1 : Nat := 0x8B
def LTR329_STATUS : Nat := 0x8C

def gain_1 : Nat := 0x00
def gain_2 : Nat := 0x01
def gain_4 : Nat := 0x02
def gain_8 : Nat := 0x03
def gain_48 : Nat := 0x06
def gain_96 : Nat := 0x07

/-! ## The bus -/

/-- One completed bus operation of the `Wire` object, as the driver issues it. -/
inductive WireOp where
  /-- The sequence `beginTransmission; write b₀; …; endTransmission` with the bytes queued. -/
  | endTransmission (bytes : List Nat)
  /-- The call `requestFrom(_i2c_address, quantity)`. -/
  | requestFrom (quantity : Nat)
  deriving DecidableEq, Repr

/-- The device on the bus.  Both fields receive the bus history, newest
operation first, with the operation being answered at its head. -/
structure TwoWire where
  /-- Error code returned by `Wire.endTransmission()`. -/
  endTransmission : List WireOp → Nat
  /-- The bytes in the receive buffer after `Wire.requestFrom`:
  `Wire.available()` is their number, `Wire.read()` takes them in order. -/
  requestFrom : List WireOp → List Nat

/-- The private data of class `LTR329`, together with the bus history. -/
structure State where
  _ch0 : Nat
  _ch1 : Nat
  _error : Nat
  _gain : Nat
  _control : Nat
  _partID : Nat
  _revisionID : Nat
  _manufacID : Nat
  _integrationTime : Nat
  _measurementRate : Nat
  _valid : Bool
  _mode : Bool
  _reset : Bool
  _newData : Bool
  trace : List WireOp
  deriving DecidableEq, Repr

/-! ## Private functions -/

/-- Embedding of `LTR329::readByte(address, value)`: `value` is passed by
reference and is overwritten only when exactly one byte arrives.  Returns the
new state, the new content of `value` and the boolean result. -/
def readByte (w : TwoWire) (s : State) (address value : Nat) : State × Nat × Bool :=
  let t1 := WireOp.endTransmission [address] :: s.trace
  let s1 := { s with trace := t1, _error := w.endTransmission t1 % 256 }
  if s1._error = 0 then
    let t2 := WireOp.requestFrom 1 :: t1
    let s2 := { s1 with trace := t2 }
    match w.requestFrom t2 with
    | [b] => (s2, b % 256, true)
    | _ => (s2, value, false)
  else
    (s1, value, false)

/-- Embedding of `LTR329::writeByte(address, value)`. -/
def writeByte (w : TwoWire) (s : State) (address value : Nat) : State × Bool :=
  let t1 := WireOp.endTransmission [address, value] :: s.trace
  let s1 := { s with trace := t1, _error := w.endTransmission t1 % 256 }
  if s1._error = 0 then (s1, true) else (s1, false)

/-! ## Mode, reset, gain and timing -/

/-- Embedding of `LTR329::activate()`. -/
def activate (w : TwoWire) (s : State) : State × Bool :=
  let (s1, c, _) := readByte w s LTR329_CONTR s._control
  let s2 := { s1 with _control := (c ||| 0x01) % 256 }
  writeByte w s2 LTR329_CONTR s2._control

/-- Embedding of `LTR329::reset()`. -/
def reset (w : TwoWire) (s : State) : State × Bool :=
  let (s1, c, _) := readByte w s LTR329_CONTR s._control
  let s2 := { s1 with _control := (c ||| 0x02) % 256 }
  writeByte w s2 LTR329_CONTR s2._control

/-- Embedding of `LTR329::getControl()`.  The local `reg` is uninitialised in
the source and is read only after a successful `readByte`. -/
def getControl (w : TwoWire) (s : State) : State × Bool :=
  let (s1, reg, ok) := readByte w s LTR329_CONTR 0
  if ok then
    ({ s1 with
        _gain := ((reg &&& 0x1C) >>> 2) % 256
        _reset := (reg &&& 0x02) != 0
        _mode := (reg &&& 0x01) != 0 }, true)
  else
    (s1, false)

/-- Embedding of `LTR329::setGain(gain)`. -/
def setGain (w : TwoWire) (s : State) (gain : Nat) : State × Bool :=
  let (s1, c, _) := readByte w s LTR329_CONTR s._control
  let gain := if gain = 4 ∨ gain = 5 ∨ gain > 7 then gain_1 else gain
  let s2 := { s1 with _control := (c &&& 0b11) % 256 }
  let s3 := { s2 with _control := (s2._control ||| (gain <<< 2)) % 256 }
  let (s4, result) := writeByte w s3 LTR329_CONTR s3._control
  if result then getControl w s4 else (s4, result)

/-- Embedding of `LTR329::setMeasurementRate(integrationTime, measurementRate)`. -/
def setMeasurementRate (w : TwoWire) (s : State) (integrationTime measurementRate : Nat) :
    State × Bool :=
  let reg := 0x00
  let integrationTime := if integrationTime > 0x07 then 0x00 else integrationTime
  let measurementRate := if measurementRate > 0x07 then 0x03 else measurementRate
  let reg := (reg ||| (integrationTime <<< 3)) % 256
  let reg := (reg ||| measurementRate) % 256
  let s1 := { s with _measurementRate := measurementRate, _integrationTime := integrationTime }
  writeByte w s1 LTR329_MEAS_RATE reg

/-- Embedding of `LTR329::getMeasurementRate()`. -/
def getMeasurementRate (w : TwoWire) (s : State) : State × Bool :=
  let (s1, reg, ok) := readByte w s LTR329_MEAS_RATE 0x00
  if ok then
    ({ s1 with
        _integrationTime := ((reg &&& 0x38) >>> 3) % 256
        _measurementRate := (reg &&& 0x07) % 256 }, true)
  else
    (s1, false)

/-- Embedding of `LTR329::getPartID()`. -/
def getPartID (w : TwoWire) (s : State) : State × Bool :=
  let (s1, reg, result) := readByte w s LTR329_PART_ID 0
  if result then
    ({ s1 with
        _partID := ((reg &&& 0xF0) >>> 4) % 256
        _revisionID := (reg &&& 0x0F) % 256 }, result)
  else
    (s1, result)

/-- Embedding of `LTR329::getManufacID()`. -/
def getManufacID (w : TwoWire) (s : State) : State × Bool :=
  let (s1, reg, result) := readByte w s LTR329_MANUFAC_ID 0
  if result then ({ s1 with _manufacID := reg % 256 }, result) else (s1, result)

/-! ## Status and raw data -/

/-- Embedding of `LTR329::readStatus()`. -/
def readStatus (w : TwoWire) (s : State) : State × Bool :=
  let (s1, status, ok) := readByte w s LTR329_STATUS 0x00
  if ok then
    ({ s1 with
        _valid := !((status &&& 0x80) != 0)
        _gain := ((status &&& 0x70) >>> 4) % 256
        _newData := (status &&& 0x04) != 0 }, true)
  else
    (s1, false)

/-- The loop `do { ret = readStatus(); delay(10); } while (!_newData);` of
`readData` and `getData`, run for at most `fuel` status reads.  The value of
`ret` is overwritten before it is used and is dropped. -/
def pollStatus (w : TwoWire) : Nat → State → Option State
  | 0, _ => none
  | fuel + 1, s =>
    let s1 := (readStatus w s).1
    if s1._newData then some s1 else pollStatus w fuel s1

/-- Modelled from the spec: the Arduino core's `word(high, low)`, declared in
`Arduino.h`, which is not part of the repository; the spec gives it as
`high*256 + low`, a 16-bit unsigned count. -/
def word (high low : Nat) : Nat := (high * 256 + low) % 65536

/-- The block transfer of `readData` (address phase at `DATA_CH1_0`, request
of four bytes, update of both channels), between the polling loop and the
closing status read. -/
def readData_transfer (w : TwoWire) (s : State) : State :=
  let t1 := WireOp.endTransmission [LTR329_DATA_CH1_0] :: s.trace
  let s1 := { s with trace := t1, _error := w.endTransmission t1 % 256 }
  if s1._error = 0 then
    let t2 := WireOp.requestFrom 4 :: t1
    let s2 := { s1 with trace := t2 }
    match w.requestFrom t2 with
    | [b0, b1, b2, b3] =>
      let low := b0 % 256
      let high := b1 % 256
      let s3 := { s2 with _ch1 := word high low }
      let low := b2 % 256
      let high := b3 % 256
      { s3 with _ch0 := word high low }
    | _ => s2
  else
    s1

/-- Embedding of `LTR329::readData()`; `none` when the polling loop does not
finish within `fuel` status reads. -/
def readData (w : TwoWire) (fuel : Nat) (s : State) : Option (State × Bool) :=
  match pollStatus w fuel s with
  | none => none
  | some s1 => some (readStatus w (readData_transfer w s1))

/-- Embedding of `LTR329::getData()`; `none` when the polling loop does not
finish within `fuel` status reads. -/
def getData (w : TwoWire) (fuel : Nat) (s : State) : Option (State × Bool) :=
  match pollStatus w fuel s with
  | none => none
  | some s0 =>
    let (s1, u, ok) := readByte w s0 LTR329_DATA_CH1_0 0
    if !ok then some (s1, false) else
    let (s2, v, ok) := readByte w s1 LTR329_DATA_CH1_1 0
    if !ok then some (s2, false) else
    let s3 := { s2 with _ch1 := (u ||| (v <<< 8)) % 65536 }
    let (s4, u, ok) := readByte w s3 LTR329_DATA_CH0_0 u
    if !ok then some (s4, false) else
    let (s5, v, ok) := readByte w s4 LTR329_DATA_CH0_1 v
    if !ok then some (s5, false) else
    let s6 := { s5 with _ch0 := (u ||| (v <<< 8)) % 65536 }
    some ((readStatus w s6).1, true)

/-! ## Auto-gain -/

/-- The array `limits` of `autoGain`. -/
def autoGain_limits : List Nat := [600, 1300, 8192, 16384, 32768, 65535]

/-- The array `gains` of `autoGain`. -/
def autoGain_gains : List Nat := [7, 6, 3, 2, 1, 0]

/-- The `for` loop of `autoGain` over the remaining `(limits[i], gains[i])`
pairs: the first pair whose limit exceeds `chmax` sets the gain, reads once
more and returns. -/
def autoGain_loop (w : TwoWire) (fuel : Nat) (chmax : Nat) :
    List (Nat × Nat) → State → Option State
  | [], s => some s
  | (limit, gain) :: rest, s =>
    if chmax < limit then
      let s1 := { s with _gain := gain }
      let s2 := (setGain w s1 s1._gain).1
      match readData w fuel s2 with
      | none => none
      | some (s3, _) => some s3
    else
      autoGain_loop w fuel chmax rest s

/-- Embedding of `LTR329::autoGain()`; `chmax` is a `uint16_t`. -/
def autoGain (w : TwoWire) (fuel : Nat) (s : State) : Option State :=
  let s1 := { s with _gain := gain_1 }
  let s2 := (setGain w s1 s1._gain).1
  match readData w fuel s2 with
  | none => none
  | some (s3, _) =>
    let chmax := (s3._ch1 + s3._ch0) % 65536
    autoGain_loop w fuel chmax (List.zip autoGain_limits autoGain_gains) s3

/-! ## Lux conversion -/

/-- Values of the C++ type `double` as far as the conversion needs them: an
exact rational, or a value that is not finite (or not defined). -/
inductive Double where
  | finite (q : ℚ)
  | nonFinite
  deriving DecidableEq

/-- The table `_gainfactor` of `LTR329.h`. -/
def _gainfactor : List ℚ := [1.0, 2.0, 4.0, 8.0, 0.0, 0.0, 48.0, 96.0]

/-- The table `_timefactor` of `LTR329.h`. -/
def _timefactor : List ℚ := [1, 0.5, 2.0, 4.0, 1.5, 2.5, 3.0, 3.5]

/-- The normalisation factor `(1.0 / _timefactor[_integrationTime]) / _gainfactor[_gain]`
of `readLux`; `none` when an index lies outside its table or the division is
by `0.0`. -/
def readLux_factor (s : State) : Option ℚ :=
  match _timefactor[s._integrationTime]?, _gainfactor[s._gain]? with
  | some tf, some gf => if tf = 0 ∨ gf = 0 then none else some (1.0 / tf / gf)
  | _, _ => none

/-- Multiplication of a finite linear combination by the normalisation factor. -/
def readLux_scale (x : ℚ) : Option ℚ → Double
  | some factor => Double.finite (x * factor)
  | none => Double.nonFinite

/-- The conversion at the end of `readLux` (from `if (_valid)` to the final
`return lux`).  With both channels zero the ratio is `0.0 / 0`, a NaN, and
every comparison with it is false. -/
def readLux_convert (s : State) : Double :=
  let lux : Double := Double.finite 0.0
  if s._valid then
    if s._ch0 + s._ch1 = 0 then lux else
    let ratio : ℚ := (s._ch1 : ℚ) / ((s._ch0 + s._ch1 : Nat) : ℚ)
    let factor := readLux_factor s
    if ratio < 0.45 then
      readLux_scale (1.7743 * s._ch0 + 1.1059 * s._ch1) factor
    else if ratio < 0.64 then
      readLux_scale (4.2785 * s._ch0 - 1.9548 * s._ch1) factor
    else if ratio < 0.85 then
      readLux_scale (0.5926 * s._ch0 + 0.1185 * s._ch1) factor
    else lux
  else
    lux

/-- The overflow recovery of `readLux`: `reset(); setMeasurementRate(...);
activate(); readData();`. -/
def readLux_recover (w : TwoWire) (fuel : Nat) (s : State) : Option State :=
  let s1 := (reset w s).1
  let s2 := (setMeasurementRate w s1 s1._integrationTime s1._measurementRate).1
  let s3 := (activate w s2).1
  match readData w fuel s3 with
  | none => none
  | some (s4, _) => some s4

/-- Embedding of `LTR329::readLux()`; `none` when one of its polling loops
does not finish within `fuel` status reads. -/
def readLux (w : TwoWire) (fuel : Nat) (s : State) : Option (State × Double) :=
  let lux : Double := Double.finite 0.0
  match readData w fuel s with
  | none => none
  | some (s1, ok) =>
    if !ok then some (s1, lux) else
    match (if !s1._valid && s1._gain != 0 then readLux_recover w fuel s1 else some s1) with
    | none => none
    | some s2 =>
      match autoGain w fuel s2 with
      | none => none
      | some s3 =>
        match readData w fuel s3 with
        | none => none
        | some (s4, _) =>
          let s5 := (getMeasurementRate w s4).1
          some (s5, readLux_convert s5)

/-- Embedding of `LTR329::begin()`; `Wire.begin()` only initialises the bus
hardware. -/
def begin (w : TwoWire) (fuel : Nat) (s : State) : Option (State × Bool) :=
  let s0 := { s with _gain := 0, _valid := true, _newData := false }
  let s1 := (getPartID w s0).1
  let s2 := (getManufacID w s1).1
  if s2._partID = 0x0A ∧ s2._manufacID = 0x05 then
    let s3 := (reset w s2).1
    let s4 := (activate w s3).1
    match readData w fuel s4 with
    | none => none
    | some (s5, _) => some (s5, true)
  else
    some (s2, false)

/-! ## A register-file device, used to run the driver on concrete inputs -/

/-- The byte most recently written to `address` in a bus history, if any. -/
def lastWritten (address : Nat) : List WireOp → Option Nat
  | [] => none
  | WireOp.endTransmission [a, v] :: rest =>
    if a = address then some v else lastWritten address rest
  | _ :: rest => lastWritten address rest

/-- A device that acknowledges every transmission and answers a request for
`n` bytes with the `n` registers that start at the address sent last; a
register holds the byte last written to it, and `init` before any write. -/
def registerFile (init : Nat → Nat) : TwoWire where
  endTransmission := fun _ => 0
  requestFrom := fun t =>
    match t with
    | WireOp.requestFrom n :: WireOp.endTransmission [a] :: rest =>
      (List.range n).map (fun i => (lastWritten (a + i) rest).getD (init (a + i)))
    | _ => []

/-- Initial register contents of a sensor that holds the given status byte
and channel counts (part number 0xA0, manufacturer 0x05, all else zero). -/
def sensorRegisters (status ch0 ch1 : Nat) : Nat → Nat := fun a =>
  if a = LTR329_STATUS then status
  else if a = LTR329_DATA_CH1_0 then ch1 % 256
  else if a = LTR329_DATA_CH1_1 then ch1 / 256
  else if a = LTR329_DATA_CH0_0 then ch0 % 256
  else if a = LTR329_DATA_CH0_1 then ch0 / 256
  else if a = LTR329_PART_ID then 0xA0
  else if a = LTR329_MANUFAC_ID then 0x05
  else 0

/-- A register-file sensor with the given status byte and channel counts. -/
def sensor (status ch0 ch1 : Nat) : TwoWire := registerFile (sensorRegisters status ch0 ch1)

/-- A register-file sensor with status byte 0x04 (new data, valid) that does
not acknowledge the address phase of the block transfer at `DATA_CH1_0`
(error code 2, NACK on address). -/
def sensorNoData (ch0 ch1 : Nat) : TwoWire where
  endTransmission := fun t =>
    match t with
    | WireOp.endTransmission [a] :: _ => if a = LTR329_DATA_CH1_0 then 2 else 0
    | _ => 0
  requestFrom := (sensor 0x04 ch0 ch1).requestFrom

/-- A driver object whose members are all zero and whose bus has no history. -/
def zeroState : State :=
  { _ch0 := 0, _ch1 := 0, _error := 0, _gain := 0, _control := 0, _partID := 0,
    _revisionID := 0, _manufacID := 0, _integrationTime := 0, _measurementRate := 0,
    _valid := false, _mode := false, _reset := false, _newData := false, trace := [] }

/-! ## Observations on the bus history -/

/-- The bytes written to register `address`, newest first. -/
def writesTo (address : Nat) : List WireOp → List Nat
  | [] => []
  | WireOp.endTransmission [a, v] :: rest =>
    if a = address then v :: writesTo address rest else writesTo address rest
  | _ :: rest => writesTo address rest

/-- The number of block transfers started at `DATA_CH1_0`, one per call of
`readData`. -/
def rawReads : List WireOp → Nat
  | [] => 0
  | WireOp.endTransmission [a] :: rest =>
    if a = LTR329_DATA_CH1_0 then rawReads rest + 1 else rawReads rest
  | _ :: rest => rawReads rest

/-! ## Assumptions on the device -/

/-- Every transmission is acknowledged: `Wire.endTransmission()` returns 0. -/
def Acknowledges (w : TwoWire) : Prop := ∀ t : List WireOp, w.endTransmission t % 256 = 0

/-- Register `address` reads back the byte last written to it: a one-byte read
at `address` after a history whose last write to `address` carried `v`
delivers exactly `v`. -/
def ReadsBack (w : TwoWire) (address : Nat) : Prop :=
  ∀ (t : List WireOp) (v : Nat), lastWritten address t = some v →
    w.requestFrom (WireOp.requestFrom 1 :: WireOp.endTransmission [address] :: t) = [v]

/-- The gain codes the sensor defines: 0, 1, 2, 3, 6 and 7. -/
def LegalGain (g : Nat) : Prop := g ∈ [0, 1, 2, 3, 6, 7]

instance (g : Nat) : Decidable (LegalGain g) := by
  unfold LegalGain
  infer_instance

/-! ## The conversion as the specification words it -/

/-- The time normalisation table of the specification. -/
def spec_timefactor : Nat → ℚ
  | 0 => 1
  | 1 => 0.5
  | 2 => 2
  | 3 => 4
  | 4 => 1.5
  | 5 => 2.5
  | 6 => 3
  | _ => 3.5

/-- The gain multiplier table of the specification (codes 4 and 5 carry no
multiplier and are not used). -/
def spec_gainfactor : Nat → ℚ
  | 0 => 1
  | 1 => 2
  | 2 => 4
  | 3 => 8
  | 6 => 48
  | _ => 96

/-- The lux value of the specification for channel counts `ch0`, `ch1`, gain
code `g` and integration-time code `t`. -/
def spec_lux (ch0 ch1 g t : Nat) : ℚ :=
  let ratio : ℚ := (ch1 : ℚ) / ((ch0 : ℚ) + (ch1 : ℚ))
  let factor : ℚ := (1 / spec_timefactor t) / spec_gainfactor g
  if ratio < 0.45 then (1.7743 * ch0 + 1.1059 * ch1) * factor
  else if 0.45 ≤ ratio ∧ ratio < 0.64 then (4.2785 * ch0 - 1.9548 * ch1) * factor
  else if 0.64 ≤ ratio ∧ ratio < 0.85 then (0.5926 * ch0 + 0.1185 * ch1) * factor
  else 0

/-! ## Gain selection as the specification words it -/

/-- The gain code after the coercion of `setGain`, as the specification words
it: the code itself when it is one of 0, 1, 2, 3, 6, 7 and 0 otherwise. -/
def spec_gain (g : Nat) : Nat := if g ∈ [0, 1, 2, 3, 6, 7] then g else 0

/-- The byte `setGain` composes from the control byte `c` and the coerced gain. -/
def setGain_byte (c g : Nat) : Nat := ((c &&& 0b11) % 256 ||| (spec_gain g <<< 2)) % 256

/-- The integration-time code after the coercion of `setMeasurementRate`, as
the specification words it: codes above 7 become the default 0. -/
def spec_integrationTime (it : Nat) : Nat := if it > 7 then 0 else it

/-- The measurement-rate code after the coercion of `setMeasurementRate`, as
the specification words it: codes above 7 become the default 3. -/
def spec_measurementRate (mr : Nat) : Nat := if mr > 7 then 3 else mr

/-- The gain code of the specification for a channel sum below 65535. -/
def spec_autoGain (sum : Nat) : Nat :=
  if sum < 600 then 7
  else if 600 ≤ sum ∧ sum < 1300 then 6
  else if 1300 ≤ sum ∧ sum < 8192 then 3
  else if 8192 ≤ sum ∧ sum < 16384 then 2
  else if 16384 ≤ sum ∧ sum < 32768 then 1
  else 0

/-! ## Further devices and auxiliary definitions -/

/-- A device that acknowledges nothing (error code 2, NACK on address) and
delivers no byte. -/
def deadDevice : TwoWire where
  endTransmission := fun _ => 2
  requestFrom := fun _ => []

/-- A register-file device whose CONTROL register holds `control` and which
does not acknowledge the very first transmission on the bus (error code 2);
every later transmission is acknowledged. -/
def sensorFirstNack (control : Nat) : TwoWire where
  endTransmission := fun t =>
    match t with
    | [_] => 2
    | _ => 0
  requestFrom := (registerFile (fun a => if a = LTR329_CONTR then control else 0)).requestFrom

/-- The part of `readLux` from the call of `autoGain()` to the end: auto-gain,
final raw read, refresh of the timing codes, conversion. -/
def readLux_rest (w : TwoWire) (fuel : Nat) (s : State) : Option (State × Double) :=
  match autoGain w fuel s with
  | none => none
  | some s3 =>
    match readData w fuel s3 with
    | none => none
    | some (s4, _) =>
      let s5 := (getMeasurementRate w s4).1
      some (s5, readLux_convert s5)

/-- Every one-byte read of the STATUS or of the CONTROL register that the
driver completed between the bus histories `before` and `after` delivered a
byte whose gain field (bits 6:4 of a status byte, bits 4:2 of a control byte)
holds a defined gain code. -/
def DeliversLegalGain (w : TwoWire) (before after : List WireOp) : Prop :=
  ∀ (t : List WireOp) (b : Nat), before <:+ t →
    ((WireOp.requestFrom 1 :: WireOp.endTransmission [LTR329_STATUS] :: t) <:+ after →
        w.requestFrom (WireOp.requestFrom 1 :: WireOp.endTransmission [LTR329_STATUS] :: t)
          = [b] →
        LegalGain (((b % 256) &&& 0x70) >>> 4))
      ∧ ((WireOp.requestFrom 1 :: WireOp.endTransmission [LTR329_CONTR] :: t) <:+ after →
        w.requestFrom (WireOp.requestFrom 1 :: WireOp.endTransmission [LTR329_CONTR] :: t)
          = [b] →
        LegalGain (((b % 256) &&& 0x1C) >>> 2))

/-- The gain field of the byte delivered by the read that ends the history
`t`, when that read is a one-byte read of STATUS or CONTROL that delivered
exactly one byte. -/
def gainFieldAt (w : TwoWire) (t : List WireOp) : List Nat :=
  match t with
  | WireOp.requestFrom 1 :: WireOp.endTransmission [a] :: _ =>
    match w.requestFrom t with
    | [b] =>
      if a = LTR329_STATUS then [((b % 256) &&& 0x70) >>> 4]
      else if a = LTR329_CONTR then [((b % 256) &&& 0x1C) >>> 2]
      else []
    | _ => []
  | _ => []

/-- The gain fields of all status and control bytes delivered in a bus
history, newest first. -/
def gainFieldsRead (w : TwoWire) : List WireOp → List Nat
  | [] => []
  | op :: t => gainFieldAt w (op :: t) ++ gainFieldsRead w t

/-- The register writes and the starts of raw reads in a bus history, newest
first: the transmissions of a register address with a value, and the address
phases at `DATA_CH1_0`. -/
def busEvents : List WireOp → List WireOp
  | [] => []
  | WireOp.endTransmission [a, v] :: rest => WireOp.endTransmission [a, v] :: busEvents rest
  | WireOp.endTransmission [a] :: rest =>
    if a = LTR329_DATA_CH1_0 then WireOp.endTransmission [a] :: busEvents rest
    else busEvents rest
  | _ :: rest => busEvents rest

theorem readByte_frame (w : TwoWire) (s : State) (a v : Nat) :
    (readByte w s a v).1
      = { s with trace := (readByte w s a v).1.trace, _error := (readByte w s a v).1._error } := by
  unfold readByte
  dsimp only
  split
  · split <;> rfl
  · rfl

theorem readByte_trace (w : TwoWire) (s : State) (a v : Nat) :
    (readByte w s a v).1.trace = WireOp.endTransmission [a] :: s.trace
    ∨ (readByte w s a v).1.trace
        = WireOp.requestFrom 1 :: WireOp.endTransmission [a] :: s.trace := by
  unfold readByte
  dsimp only
  split
  · split <;> simp
  · simp

@[simp] theorem readByte_writesTo (w : TwoWire) (s : State) (a v x : Nat) :
    writesTo x (readByte w s a v).1.trace = writesTo x s.trace := by
  rcases readByte_trace w s a v with h | h <;> rw [h] <;> simp [writesTo]

theorem readByte_rawReads (w : TwoWire) (s : State) (a v : Nat) (h : a ≠ LTR329_DATA_CH1_0) :
    rawReads (readByte w s a v).1.trace = rawReads s.trace := by
  rcases readByte_trace w s a v with h' | h' <;> rw [h'] <;> simp [rawReads, h]

@[simp] theorem writeByte_trace (w : TwoWire) (s : State) (a v : Nat) :
    (writeByte w s a v).1.trace = WireOp.endTransmission [a, v] :: s.trace := by
  unfold writeByte
  dsimp only
  split <;> rfl

@[simp] theorem readStatus_writesTo (w : TwoWire) (s : State) (x : Nat) :
    writesTo x (readStatus w s).1.trace = writesTo x s.trace := by
  have h := readByte_writesTo w s LTR329_STATUS 0 x
  unfold readStatus
  rcases hr : readByte w s LTR329_STATUS 0 with ⟨s1, st, ok⟩
  rw [hr] at h
  cases ok <;> simpa using h

@[simp] theorem readStatus_rawReads (w : TwoWire) (s : State) :
    rawReads (readStatus w s).1.trace = rawReads s.trace := by
  have h := readByte_rawReads w s LTR329_STATUS 0 (by decide)
  unfold readStatus
  rcases hr : readByte w s LTR329_STATUS 0 with ⟨s1, st, ok⟩
  rw [hr] at h
  cases ok <;> simpa using h

theorem pollStatus_writesTo (w : TwoWire) (x : Nat) :
    ∀ (fuel : Nat) (s s1 : State), pollStatus w fuel s = some s1 →
      writesTo x s1.trace = writesTo x s.trace := by
  intro fuel
  induction fuel with
  | zero => intro s s1 h; simp [pollStatus] at h
  | succ n ih =>
    intro s s1 h
    simp only [pollStatus] at h
    split at h
    · cases h; simp
    · rw [ih _ _ h]; simp

theorem pollStatus_rawReads (w : TwoWire) :
    ∀ (fuel : Nat) (s s1 : State), pollStatus w fuel s = some s1 →
      rawReads s1.trace = rawReads s.trace := by
  intro fuel
  induction fuel with
  | zero => intro s s1 h; simp [pollStatus] at h
  | succ n ih =>
    intro s s1 h
    simp only [pollStatus] at h
    split at h
    · cases h; simp
    · rw [ih _ _ h]; simp

theorem readData_transfer_trace (w : TwoWire) (s : State) :
    (readData_transfer w s).trace = WireOp.endTransmission [LTR329_DATA_CH1_0] :: s.trace
    ∨ (readData_transfer w s).trace
        = WireOp.requestFrom 4 :: WireOp.endTransmission [LTR329_DATA_CH1_0] :: s.trace := by
  unfold readData_transfer
  dsimp only
  split
  · split <;> simp
  · simp

@[simp] theorem readData_transfer_writesTo (w : TwoWire) (s : State) (x : Nat) :
    writesTo x (readData_transfer w s).trace = writesTo x s.trace := by
  rcases readData_transfer_trace w s with h | h <;> rw [h] <;> simp [writesTo]

@[simp] theorem readData_transfer_rawReads (w : TwoWire) (s : State) :
    rawReads (readData_transfer w s).trace = rawReads s.trace + 1 := by
  rcases readData_transfer_trace w s with h | h <;> rw [h] <;> simp [rawReads]

theorem readData_writesTo (w : TwoWire) (fuel : Nat) (s s1 : State) (r : Bool) (x : Nat)
    (h : readData w fuel s = some (s1, r)) : writesTo x s1.trace = writesTo x s.trace := by
  unfold readData at h
  split at h
  · cases h
  · rename_i sp hp
    have e : s1 = (readStatus w (readData_transfer w sp)).1 := by
      simp only [Option.some.injEq] at h; rw [h]
    rw [e, readStatus_writesTo, readData_transfer_writesTo, pollStatus_writesTo w x _ _ _ hp]

theorem readData_rawReads (w : TwoWire) (fuel : Nat) (s s1 : State) (r : Bool)
    (h : readData w fuel s = some (s1, r)) : rawReads s1.trace = rawReads s.trace + 1 := by
  unfold readData at h
  split at h
  · cases h
  · rename_i sp hp
    have e : s1 = (readStatus w (readData_transfer w sp)).1 := by
      simp only [Option.some.injEq] at h; rw [h]
    rw [e, readStatus_rawReads, readData_transfer_rawReads, pollStatus_rawReads w _ _ _ hp]

@[simp] theorem getControl_writesTo (w : TwoWire) (s : State) (x : Nat) :
    writesTo x (getControl w s).1.trace = writesTo x s.trace := by
  have h := readByte_writesTo w s LTR329_CONTR 0 x
  unfold getControl
  rcases hr : readByte w s LTR329_CONTR 0 with ⟨s1, st, ok⟩
  rw [hr] at h
  cases ok <;> simpa using h

@[simp] theorem getControl_rawReads (w : TwoWire) (s : State) :
    rawReads (getControl w s).1.trace = rawReads s.trace := by
  have h := readByte_rawReads w s LTR329_CONTR 0 (by decide)
  unfold getControl
  rcases hr : readByte w s LTR329_CONTR 0 with ⟨s1, st, ok⟩
  rw [hr] at h
  cases ok <;> simpa using h

theorem setGain_coerce (g : Nat) :
    (if g = 4 ∨ g = 5 ∨ g > 7 then gain_1 else g) = spec_gain g := by
  unfold spec_gain gain_1
  simp only [List.mem_cons, List.mem_singleton, List.not_mem_nil, or_false]
  split_ifs <;> omega

theorem spec_gain_le (g : Nat) : spec_gain g ≤ 7 := by
  unfold spec_gain
  simp only [List.mem_cons, List.mem_singleton, List.not_mem_nil, or_false]
  split_ifs <;> omega

theorem setGain_writesTo (w : TwoWire) (s : State) (g : Nat) :
    writesTo LTR329_CONTR (setGain w s g).1.trace
      = setGain_byte (readByte w s LTR329_CONTR s._control).2.1 g
          :: writesTo LTR329_CONTR s.trace := by
  have h := readByte_writesTo w s LTR329_CONTR s._control LTR329_CONTR
  unfold setGain
  rcases hr : readByte w s LTR329_CONTR s._control with ⟨s1, c, ok⟩
  rw [hr] at h
  simp only [setGain_coerce] at *
  split <;> simp [writesTo, h, setGain_byte]

theorem setGain_rawReads (w : TwoWire) (s : State) (g : Nat) :
    rawReads (setGain w s g).1.trace = rawReads s.trace := by
  have h := readByte_rawReads w s LTR329_CONTR s._control (by decide)
  unfold setGain
  rcases hr : readByte w s LTR329_CONTR s._control with ⟨s1, c, ok⟩
  rw [hr] at h
  simp only [setGain_coerce] at *
  split <;> simp [rawReads, h]

theorem setGain_byte_gain (c g : Nat) : (setGain_byte c g >>> 2) &&& 7 = spec_gain g := by
  have hg := spec_gain_le g
  have hc : c &&& 0b11 < 4 := by
    have : c &&& 0b11 ≤ 0b11 := Nat.and_le_right
    omega
  unfold setGain_byte
  generalize spec_gain g = k at *
  generalize c &&& 0b11 = x at *
  interval_cases x <;> interval_cases k <;> rfl

theorem setGain_byte_low (c g : Nat) : setGain_byte c g &&& 0b11 = c &&& 0b11 := by
  have hg := spec_gain_le g
  have hc : c &&& 0b11 < 4 := by
    have : c &&& 0b11 ≤ 0b11 := Nat.and_le_right
    omega
  unfold setGain_byte
  generalize spec_gain g = k at *
  generalize c &&& 0b11 = x at *
  interval_cases x <;> interval_cases k <;> rfl

/-! ### Lux conversion -/

theorem readLux_factor_eq (s : State) (hg : s._gain ∈ [0, 1, 2, 3, 6, 7])
    (ht : s._integrationTime ≤ 7) :
    readLux_factor s
      = some ((1 / spec_timefactor s._integrationTime) / spec_gainfactor s._gain) := by
  obtain ⟨ch0, ch1, e, g, c, p, r, m, t, mr, v, md, rs, nd, tr⟩ := s
  simp only [List.mem_cons, List.mem_singleton, List.not_mem_nil, or_false] at hg
  simp only at ht
  have ht' : t = 0 ∨ t = 1 ∨ t = 2 ∨ t = 3 ∨ t = 4 ∨ t = 5 ∨ t = 6 ∨ t = 7 := by omega
  rcases hg with rfl | rfl | rfl | rfl | rfl | rfl <;>
  rcases ht' with rfl | rfl | rfl | rfl | rfl | rfl | rfl | rfl <;>
  norm_num [readLux_factor, _timefactor, _gainfactor, spec_timefactor, spec_gainfactor]

theorem readLux_convert_valid (s : State) (hv : s._valid = true)
    (hne : ¬ (s._ch0 = 0 ∧ s._ch1 = 0))
    (hg : s._gain ∈ [0, 1, 2, 3, 6, 7]) (ht : s._integrationTime ≤ 7) :
    readLux_convert s
      = Double.finite (spec_lux s._ch0 s._ch1 s._gain s._integrationTime) := by
  have hsum : s._ch0 + s._ch1 ≠ 0 := by omega
  simp only [readLux_convert, hv, if_true, hsum, if_false, readLux_factor_eq s hg ht,
    readLux_scale, spec_lux, Nat.cast_add]
  by_cases c1 : (s._ch1 : ℚ) / ((s._ch0 : ℚ) + (s._ch1 : ℚ)) < 0.45
  · simp only [c1, if_true]
  · by_cases c2 : (s._ch1 : ℚ) / ((s._ch0 : ℚ) + (s._ch1 : ℚ)) < 0.64
    · simp only [c1, c2, if_true, if_false, not_lt.mp c1, and_self]
    · by_cases c3 : (s._ch1 : ℚ) / ((s._ch0 : ℚ) + (s._ch1 : ℚ)) < 0.85
      · simp only [c1, c2, c3, if_true, if_false, not_lt.mp c2, and_self, and_false]
      · simp only [c1, c2, c3, if_false, and_false]
        norm_num

theorem readLux_convert_invalid (s : State) (hv : s._valid = false) :
    readLux_convert s = Double.finite 0.0 := by
  unfold readLux_convert
  simp only [hv, Bool.false_eq_true, if_false]

theorem readLux_result (w : TwoWire) (fuel : Nat) (s s1 : State) (lux : Double)
    (h : readLux w fuel s = some (s1, lux)) :
    ((readData w fuel s).map Prod.snd = some false ∧ lux = Double.finite 0.0)
      ∨ ((readData w fuel s).map Prod.snd = some true ∧ lux = readLux_convert s1) := by
  unfold readLux at h
  split at h
  · cases h
  · rename_i s0 ok hrd
    rw [hrd]
    cases ok
    · left
      simp only [Bool.not_false, if_true, Option.some.injEq, Prod.mk.injEq] at h
      exact ⟨rfl, h.2.symm⟩
    · right
      simp only [Bool.not_true, Bool.false_eq_true, if_false] at h
      split at h
      · cases h
      · split at h
        · cases h
        · split at h
          · cases h
          · simp only [Option.some.injEq, Prod.mk.injEq] at h
            exact ⟨rfl, by rw [← h.2, h.1]⟩

/-- C1: for a final reading with validity true, channel counts that are not
both zero (16-bit or not), a gain code in {0,1,2,3,6,7} and an integration-time
code in 0..7, the conversion of `readLux` yields the piecewise formula of the
specification, and so does every call of `readLux` that ends in this reading
after a successful first raw read; the ratio intervals are half-open, so a
ratio of exactly 0.45 takes the second formula, exactly 0.64 the third, and
exactly 0.85 gives 0.0. -/
theorem readLux_convert_formula (s : State) (hv : s._valid = true)
    (hne : ¬ (s._ch0 = 0 ∧ s._ch1 = 0))
    (hg : s._gain ∈ [0, 1, 2, 3, 6, 7]) (ht : s._integrationTime ≤ 7) :
    readLux_convert s
        = Double.finite (spec_lux s._ch0 s._ch1 s._gain s._integrationTime)
      ∧ (∀ (w : TwoWire) (fuel : Nat) (s0 : State) (lux : Double),
          readLux w fuel s0 = some (s, lux) → (readData w fuel s0).map Prod.snd = some true →
          lux = Double.finite (spec_lux s._ch0 s._ch1 s._gain s._integrationTime))
      ∧ ((s._ch1 : ℚ) / ((s._ch0 : ℚ) + (s._ch1 : ℚ)) = 0.45 →
          readLux_convert s
            = Double.finite ((4.2785 * s._ch0 - 1.9548 * s._ch1)
                * ((1 / spec_timefactor s._integrationTime) / spec_gainfactor s._gain)))
      ∧ ((s._ch1 : ℚ) / ((s._ch0 : ℚ) + (s._ch1 : ℚ)) = 0.64 →
          readLux_convert s
            = Double.finite ((0.5926 * s._ch0 + 0.1185 * s._ch1)
                * ((1 / spec_timefactor s._integrationTime) / spec_gainfactor s._gain)))
      ∧ ((s._ch1 : ℚ) / ((s._ch0 : ℚ) + (s._ch1 : ℚ)) = 0.85 →
          readLux_convert s = Double.finite 0) := by
  have hc := readLux_convert_valid s hv hne hg ht
  refine ⟨hc, ?_, ?_, ?_, ?_⟩
  · intro w fuel s0 lux h hok
    rcases readLux_result w fuel s0 s lux h with h2 | h2
    · rw [hok] at h2
      exact absurd h2.1 (by decide)
    · rw [h2.2, hc]
  · intro hr
    rw [hc]
    simp only [spec_lux, hr]
    norm_num
  · intro hr
    rw [hc]
    simp only [spec_lux, hr]
    norm_num
  · intro hr
    rw [hc]
    simp only [spec_lux, hr]
    norm_num

/-- C1, at the two readings the specification names and at a ratio on a
boundary: gain 0, integration time 0, `ch0 = 500`, `ch1 = 100` gives 997.74 by
the first formula; `ch0 = 100`, `ch1 = 100` (ratio 0.5) gives the value of the
second formula; `ch0 = 11`, `ch1 = 9` (ratio exactly 0.45) gives the value of
the second formula as well. -/
theorem readLux_convert_formula_witness :
    readLux_convert { zeroState with _valid := true, _ch0 := 500, _ch1 := 100 }
        = Double.finite 997.74
      ∧ readLux_convert { zeroState with _valid := true, _ch0 := 100, _ch1 := 100 }
        = Double.finite (4.2785 * 100 - 1.9548 * 100)
      ∧ readLux_convert { zeroState with _valid := true, _ch0 := 11, _ch1 := 9 }
        = Double.finite (4.2785 * 11 - 1.9548 * 9) := by
  refine ⟨?_, ?_, ?_⟩
  · rw [(readLux_convert_formula _ rfl (by decide) (by decide) (by decide)).1]
    norm_num [spec_lux, spec_timefactor, spec_gainfactor, zeroState]
  · rw [(readLux_convert_formula _ rfl (by decide) (by decide) (by decide)).1]
    norm_num [spec_lux, spec_timefactor, spec_gainfactor, zeroState]
  · rw [(readLux_convert_formula _ rfl (by decide) (by decide) (by decide)).2.2.1
      (by norm_num [zeroState])]
    norm_num [spec_timefactor, spec_gainfactor, zeroState]

/-! ### Auto-gain -/

theorem autoGain_loop_select (w : TwoWire) (fuel chmax : Nat) (s : State)
    (h : chmax < 65535) :
    autoGain_loop w fuel chmax (List.zip autoGain_limits autoGain_gains) s
      = (readData w fuel
          (setGain w { s with _gain := spec_autoGain chmax } (spec_autoGain chmax)).1).map
          Prod.fst := by
  have e : ∀ g : Nat, (match readData w fuel (setGain w { s with _gain := g } g).1 with
      | none => none
      | some (s3, _) => some s3)
      = (readData w fuel (setGain w { s with _gain := g } g).1).map Prod.fst := by
    intro g
    cases readData w fuel (setGain w { s with _gain := g } g).1 <;> rfl
  simp only [autoGain_limits, autoGain_gains, List.zip_cons_cons, List.zip_nil_right,
    autoGain_loop, e, spec_autoGain]
  split_ifs <;> first | rfl | omega

/-- C2: when the first raw read of `autoGain` (after the write of gain code 0)
returns channel counts whose sum is below 65535, `autoGain` writes to CONTROL
a byte whose bits 4:2 hold the code paired with the first bound strictly above
the sum (7, 6, 3, 2, 1, 0 for the bounds 600, 1300, 8192, 16384, 32768, 65535),
performs exactly one more raw read and returns. -/
theorem autoGain_selects (w : TwoWire) (fuel : Nat) (s s3 s4 : State) (r3 r4 : Bool)
    (h1 : readData w fuel (setGain w { s with _gain := gain_1 } gain_1).1 = some (s3, r3))
    (hsum : s3._ch0 + s3._ch1 < 65535)
    (h2 : readData w fuel
        (setGain w { s3 with _gain := spec_autoGain (s3._ch0 + s3._ch1) }
          (spec_autoGain (s3._ch0 + s3._ch1))).1 = some (s4, r4)) :
    autoGain w fuel s = some s4
      ∧ rawReads s3.trace = rawReads s.trace + 1
      ∧ rawReads s4.trace = rawReads s3.trace + 1
      ∧ ∃ v0 v1 : Nat,
          writesTo LTR329_CONTR s3.trace = v0 :: writesTo LTR329_CONTR s.trace
          ∧ writesTo LTR329_CONTR s4.trace = v1 :: writesTo LTR329_CONTR s3.trace
          ∧ (v0 >>> 2) &&& 7 = 0
          ∧ (v1 >>> 2) &&& 7 = spec_autoGain (s3._ch0 + s3._ch1) := by
  have hg : ∀ n, spec_gain (spec_autoGain n) = spec_autoGain n := by
    intro n
    unfold spec_autoGain spec_gain
    split_ifs <;> simp_all
  refine ⟨?_, ?_, ?_,
    setGain_byte (readByte w { s with _gain := gain_1 } LTR329_CONTR s._control).2.1 gain_1,
    setGain_byte (readByte w { s3 with _gain := spec_autoGain (s3._ch0 + s3._ch1) }
      LTR329_CONTR s3._control).2.1 (spec_autoGain (s3._ch0 + s3._ch1)), ?_, ?_, ?_, ?_⟩
  · unfold autoGain
    simp only [h1]
    have hc : (s3._ch1 + s3._ch0) % 65536 = s3._ch0 + s3._ch1 := by omega
    rw [hc, autoGain_loop_select w fuel _ s3 hsum, h2]
    rfl
  · rw [readData_rawReads w fuel _ s3 r3 h1, setGain_rawReads]
  · rw [readData_rawReads w fuel _ s4 r4 h2, setGain_rawReads]
  · rw [readData_writesTo w fuel _ s3 r3 _ h1, setGain_writesTo]
  · rw [readData_writesTo w fuel _ s4 r4 _ h2, setGain_writesTo]
  · rw [setGain_byte_gain]; rfl
  · rw [setGain_byte_gain, hg]

/-- C2, on a sensor that reports new valid data with `ch0 = 500`, `ch1 = 100`
(sum exactly 600, the first bound): `autoGain` returns after two raw reads,
having written 0 and then 24 (gain code 6 in bits 4:2) to CONTROL. -/
theorem autoGain_selects_witness :
    (autoGain (sensor 0x04 500 100) 1 zeroState).map
        (fun s => (writesTo LTR329_CONTR s.trace, rawReads s.trace))
      = some ([24, 0], 2) := by
  have h := autoGain_selects (sensor 0x04 500 100) 1 zeroState
    ((readData (sensor 0x04 500 100) 1
      (setGain (sensor 0x04 500 100) zeroState 0).1).getD (zeroState, false)).1
    ((readData (sensor 0x04 500 100) 1
      (setGain (sensor 0x04 500 100)
        { zeroState with _ch0 := 500, _ch1 := 100, _valid := true, _newData := true
                         trace := [.requestFrom 1, .endTransmission [140], .requestFrom 4,
                           .endTransmission [136], .requestFrom 1, .endTransmission [140],
                           .requestFrom 1, .endTransmission [128], .endTransmission [128, 0],
                           .requestFrom 1, .endTransmission [128]] } 6).1).getD
      (zeroState, false)).1
    true true (by decide) (by decide) (by decide)
  rw [h.1]
  decide

/-- C3: on a sensor that reports new valid data with `ch0 = 40000`,
`ch1 = 30000` at gain 0 (sum 70000, above 65535), `autoGain` returns having
written 0 and then 12 to CONTROL, that is gain code 3 in bits 4:2: the sum is
stored in a 16-bit variable and wraps to 4464. -/
theorem autoGain_saturated_wraps :
    (autoGain (sensor 0x04 40000 30000) 1 zeroState).map
        (fun s => (writesTo LTR329_CONTR s.trace).map (fun v => (v >>> 2) &&& 7))
      = some [3, 0] := by
  decide

/-! ### Round trips through the device registers -/

theorem registerFile_acknowledges (init : Nat → Nat) : Acknowledges (registerFile init) := by
  intro t
  rfl

theorem registerFile_readsBack (init : Nat → Nat) (a : Nat) : ReadsBack (registerFile init) a := by
  intro t v h
  simp [registerFile, h, List.range_succ]

theorem readByte_ok (w : TwoWire) (s : State) (a v b : Nat)
    (h1 : w.endTransmission (WireOp.endTransmission [a] :: s.trace) % 256 = 0)
    (h2 : w.requestFrom (WireOp.requestFrom 1 :: WireOp.endTransmission [a] :: s.trace) = [b]) :
    readByte w s a v
      = ({ s with trace := WireOp.requestFrom 1 :: WireOp.endTransmission [a] :: s.trace,
                  _error := 0 }, b % 256, true) := by
  unfold readByte
  simp only [h1, h2, if_true]

theorem writeByte_ok (w : TwoWire) (s : State) (a v : Nat)
    (h1 : w.endTransmission (WireOp.endTransmission [a, v] :: s.trace) % 256 = 0) :
    writeByte w s a v
      = ({ s with trace := WireOp.endTransmission [a, v] :: s.trace, _error := 0 }, true) := by
  unfold writeByte
  simp only [h1, if_true]

theorem getControl_decode (c g : Nat) :
    ((setGain_byte c g % 256 &&& 0x1C) >>> 2) % 256 = spec_gain g := by
  have hg := spec_gain_le g
  have hc : c &&& 0b11 < 4 := by
    have : c &&& 0b11 ≤ 0b11 := Nat.and_le_right
    omega
  unfold setGain_byte
  generalize spec_gain g = k at *
  generalize c &&& 0b11 = x at *
  interval_cases x <;> interval_cases k <;> rfl

theorem setGain_eq (w : TwoWire) (s : State) (g : Nat) (hack : Acknowledges w)
    (hrb : ReadsBack w LTR329_CONTR) :
    setGain w s g
      = ({ (readByte w s LTR329_CONTR s._control).1 with
            _control := setGain_byte (readByte w s LTR329_CONTR s._control).2.1 g
            _error := 0
            trace := WireOp.requestFrom 1 :: WireOp.endTransmission [LTR329_CONTR]
              :: WireOp.endTransmission
                  [LTR329_CONTR, setGain_byte (readByte w s LTR329_CONTR s._control).2.1 g]
              :: (readByte w s LTR329_CONTR s._control).1.trace
            _gain := spec_gain g
            _reset :=
              (setGain_byte (readByte w s LTR329_CONTR s._control).2.1 g % 256 &&& 0x02) != 0
            _mode :=
              (setGain_byte (readByte w s LTR329_CONTR s._control).2.1 g % 256 &&& 0x01) != 0 },
          true) := by
  rcases hr : readByte w s LTR329_CONTR s._control with ⟨s1, c, ok⟩
  unfold setGain
  simp only [hr, setGain_coerce]
  rw [writeByte_ok _ _ _ _ (hack _)]
  simp only [if_true]
  unfold getControl
  rw [readByte_ok w _ LTR329_CONTR 0 (setGain_byte c g) (hack _)
    (hrb _ _ (by simp [lastWritten, setGain_byte]))]
  simp only [if_true, getControl_decode]
  rfl

/-- C4: over a device that acknowledges every transmission and whose CONTROL
register reads back the byte last written to it, `setGain g` returns true and
leaves the cached gain equal to `g` when `g` is one of 0, 1, 2, 3, 6, 7 and
equal to 0 for every other byte; a following `getControl` succeeds and caches
the same code. -/
theorem setGain_roundtrip (w : TwoWire) (s : State) (g : Nat) (hack : Acknowledges w)
    (hrb : ReadsBack w LTR329_CONTR) :
    (setGain w s g).2 = true
      ∧ (g ∈ [0, 1, 2, 3, 6, 7] → (setGain w s g).1._gain = g)
      ∧ (g ∉ [0, 1, 2, 3, 6, 7] → (setGain w s g).1._gain = 0)
      ∧ (getControl w (setGain w s g).1).2 = true
      ∧ (getControl w (setGain w s g).1).1._gain = (setGain w s g).1._gain := by
  have he := setGain_eq w s g hack hrb
  have hgc : (getControl w (setGain w s g).1).2 = true
      ∧ (getControl w (setGain w s g).1).1._gain = spec_gain g := by
    unfold getControl
    rw [he]
    rw [readByte_ok w _ LTR329_CONTR 0
      (setGain_byte (readByte w s LTR329_CONTR s._control).2.1 g) (hack _)
      (hrb _ _ (by simp [lastWritten]))]
    simp only [if_true, getControl_decode, and_self]
  have hgain : (setGain w s g).1._gain = spec_gain g := by rw [he]
  refine ⟨by rw [he], ?_, ?_, hgc.1, by rw [hgc.2, hgain]⟩
  · intro h; rw [hgain]; simp only [spec_gain, h, if_true]
  · intro h; rw [hgain]; simp only [spec_gain, h, if_false]

/-- C4, on a register-file sensor: gain code 6 is read back as 6, the illegal
codes 4, 5, 8 and 255 leave the cached gain at 0. -/
theorem setGain_roundtrip_witness :
    (setGain (sensor 0x04 0 0) zeroState 6).2 = true
      ∧ (setGain (sensor 0x04 0 0) zeroState 6).1._gain = 6
      ∧ (setGain (sensor 0x04 0 0) zeroState 4).1._gain = 0
      ∧ (setGain (sensor 0x04 0 0) zeroState 5).1._gain = 0
      ∧ (setGain (sensor 0x04 0 0) zeroState 8).1._gain = 0
      ∧ (setGain (sensor 0x04 0 0) zeroState 255).1._gain = 0 :=
  ⟨(setGain_roundtrip (sensor 0x04 0 0) zeroState 6 (registerFile_acknowledges _)
      (registerFile_readsBack _ _)).1,
   (setGain_roundtrip (sensor 0x04 0 0) zeroState 6 (registerFile_acknowledges _)
      (registerFile_readsBack _ _)).2.1 (by decide),
   (setGain_roundtrip (sensor 0x04 0 0) zeroState 4 (registerFile_acknowledges _)
      (registerFile_readsBack _ _)).2.2.1 (by decide),
   (setGain_roundtrip (sensor 0x04 0 0) zeroState 5 (registerFile_acknowledges _)
      (registerFile_readsBack _ _)).2.2.1 (by decide),
   (setGain_roundtrip (sensor 0x04 0 0) zeroState 8 (registerFile_acknowledges _)
      (registerFile_readsBack _ _)).2.2.1 (by decide),
   (setGain_roundtrip (sensor 0x04 0 0) zeroState 255 (registerFile_acknowledges _)
      (registerFile_readsBack _ _)).2.2.1 (by decide)⟩

theorem measurementRate_byte (it mr : Nat) (hit : it ≤ 7) (hmr : mr ≤ 7) :
    ((0x00 ||| (it <<< 3)) % 256 ||| mr) % 256 = (it <<< 3) ||| mr
      ∧ ((((it <<< 3) ||| mr) % 256 &&& 0x38) >>> 3) % 256 = it
      ∧ (((it <<< 3) ||| mr) % 256 &&& 0x07) % 256 = mr := by
  interval_cases it <;> interval_cases mr <;> decide

theorem spec_integrationTime_le (it : Nat) : spec_integrationTime it ≤ 7 := by
  unfold spec_integrationTime
  split_ifs <;> omega

theorem spec_measurementRate_le (mr : Nat) : spec_measurementRate mr ≤ 7 := by
  unfold spec_measurementRate
  split_ifs <;> omega

theorem setMeasurementRate_eq (w : TwoWire) (s : State) (it mr : Nat) :
    setMeasurementRate w s it mr
      = writeByte w
          { s with _measurementRate := spec_measurementRate mr
                   _integrationTime := spec_integrationTime it }
          LTR329_MEAS_RATE ((spec_integrationTime it <<< 3) ||| spec_measurementRate mr) := by
  have hb := (measurementRate_byte _ _ (spec_integrationTime_le it)
    (spec_measurementRate_le mr)).1
  unfold setMeasurementRate
  simp only [spec_integrationTime, spec_measurementRate] at hb ⊢
  rw [hb]

/-- C5: over a device that acknowledges every transmission and whose MEAS_RATE
register reads back the byte last written to it, `setMeasurementRate it mr`
writes the single byte `(it' << 3) | mr'` to MEAS_RATE, where `it' = it` and
`mr' = mr` for codes in 0..7 and each code above 7 is replaced on its own by
its default (0 and 3), and a following `getMeasurementRate` reads register
0x85, succeeds and leaves the cached pair equal to `(it', mr')`; the pair comes
from the byte read back and not from the cache `setMeasurementRate` left: the
same holds when `getMeasurementRate` is called with any other cached values
after the same bus history. -/
theorem measurementRate_roundtrip (w : TwoWire) (s : State) (it mr : Nat)
    (hack : Acknowledges w) (hrb : ReadsBack w LTR329_MEAS_RATE) :
    (setMeasurementRate w s it mr).2 = true
      ∧ writesTo LTR329_MEAS_RATE (setMeasurementRate w s it mr).1.trace
          = ((spec_integrationTime it <<< 3) ||| spec_measurementRate mr)
              :: writesTo LTR329_MEAS_RATE s.trace
      ∧ (getMeasurementRate w (setMeasurementRate w s it mr).1).2 = true
      ∧ (getMeasurementRate w (setMeasurementRate w s it mr).1).1._integrationTime
          = spec_integrationTime it
      ∧ (getMeasurementRate w (setMeasurementRate w s it mr).1).1._measurementRate
          = spec_measurementRate mr
      ∧ (∀ s2 : State, s2.trace = (setMeasurementRate w s it mr).1.trace →
          (getMeasurementRate w s2).2 = true
          ∧ (getMeasurementRate w s2).1._integrationTime = spec_integrationTime it
          ∧ (getMeasurementRate w s2).1._measurementRate = spec_measurementRate mr
          ∧ (getMeasurementRate w s2).1.trace
              = WireOp.requestFrom 1 :: WireOp.endTransmission [0x85]
                :: WireOp.endTransmission
                    [0x85, (spec_integrationTime it <<< 3) ||| spec_measurementRate mr]
                :: s.trace) := by
  have hb := measurementRate_byte _ _ (spec_integrationTime_le it) (spec_measurementRate_le mr)
  have hread : ∀ s2 : State, s2.trace = (setMeasurementRate w s it mr).1.trace →
      (getMeasurementRate w s2).2 = true
      ∧ (getMeasurementRate w s2).1._integrationTime = spec_integrationTime it
      ∧ (getMeasurementRate w s2).1._measurementRate = spec_measurementRate mr
      ∧ (getMeasurementRate w s2).1.trace
          = WireOp.requestFrom 1 :: WireOp.endTransmission [0x85]
            :: WireOp.endTransmission
                [0x85, (spec_integrationTime it <<< 3) ||| spec_measurementRate mr]
            :: s.trace := by
    intro s2 ht
    rw [setMeasurementRate_eq, writeByte_trace] at ht
    unfold getMeasurementRate
    rw [readByte_ok w s2 LTR329_MEAS_RATE 0
      ((spec_integrationTime it <<< 3) ||| spec_measurementRate mr) (hack _)
      (by rw [ht]; exact hrb _ _ (by simp [lastWritten]))]
    simp only [if_true, hb.2.1, hb.2.2, ht, true_and]
    rfl
  have h0 := hread (setMeasurementRate w s it mr).1 rfl
  refine ⟨?_, ?_, h0.1, h0.2.1, h0.2.2.1, hread⟩
  · rw [setMeasurementRate_eq, writeByte_ok _ _ _ _ (hack _)]
  · rw [setMeasurementRate_eq, writeByte_trace]
    simp [writesTo]

/-- C5, on a register-file sensor: the pair (5, 2) is written as 0x2A and read
back as (5, 2), also when the cache has been overwritten with (7, 7) in
between; the pair (9, 200), both above 7, is written as 0x03 and read back as
(0, 3); in (9, 2) and (5, 200) only the code above 7 is replaced. -/
theorem measurementRate_roundtrip_witness :
    (writesTo LTR329_MEAS_RATE (setMeasurementRate (sensor 0x04 0 0) zeroState 5 2).1.trace
        = [0x2A]
      ∧ (getMeasurementRate (sensor 0x04 0 0)
          (setMeasurementRate (sensor 0x04 0 0) zeroState 5 2).1).1._integrationTime = 5
      ∧ (getMeasurementRate (sensor 0x04 0 0)
          (setMeasurementRate (sensor 0x04 0 0) zeroState 5 2).1).1._measurementRate = 2)
    ∧ ((getMeasurementRate (sensor 0x04 0 0)
          { (setMeasurementRate (sensor 0x04 0 0) zeroState 5 2).1 with
              _integrationTime := 7, _measurementRate := 7 }).1._integrationTime = 5
      ∧ (getMeasurementRate (sensor 0x04 0 0)
          { (setMeasurementRate (sensor 0x04 0 0) zeroState 5 2).1 with
              _integrationTime := 7, _measurementRate := 7 }).1._measurementRate = 2)
    ∧ (writesTo LTR329_MEAS_RATE (setMeasurementRate (sensor 0x04 0 0) zeroState 9 200).1.trace
        = [0x03]
      ∧ (getMeasurementRate (sensor 0x04 0 0)
          (setMeasurementRate (sensor 0x04 0 0) zeroState 9 200).1).1._integrationTime = 0
      ∧ (getMeasurementRate (sensor 0x04 0 0)
          (setMeasurementRate (sensor 0x04 0 0) zeroState 9 200).1).1._measurementRate = 3)
    ∧ writesTo LTR329_MEAS_RATE (setMeasurementRate (sensor 0x04 0 0) zeroState 9 2).1.trace
        = [0x02]
    ∧ writesTo LTR329_MEAS_RATE (setMeasurementRate (sensor 0x04 0 0) zeroState 5 200).1.trace
        = [0x2B] := by
  have h1 := measurementRate_roundtrip (sensor 0x04 0 0) zeroState 5 2
    (registerFile_acknowledges _) (registerFile_readsBack _ _)
  have h2 := measurementRate_roundtrip (sensor 0x04 0 0) zeroState 9 200
    (registerFile_acknowledges _) (registerFile_readsBack _ _)
  have h3 := measurementRate_roundtrip (sensor 0x04 0 0) zeroState 9 2
    (registerFile_acknowledges _) (registerFile_readsBack _ _)
  have h4 := measurementRate_roundtrip (sensor 0x04 0 0) zeroState 5 200
    (registerFile_acknowledges _) (registerFile_readsBack _ _)
  have h5 := h1.2.2.2.2.2
    { (setMeasurementRate (sensor 0x04 0 0) zeroState 5 2).1 with
        _integrationTime := 7, _measurementRate := 7 } rfl
  exact ⟨⟨h1.2.1, h1.2.2.2.1, h1.2.2.2.2.1⟩, ⟨h5.2.1, h5.2.2.1⟩,
    ⟨h2.2.1, h2.2.2.2.1, h2.2.2.2.2.1⟩, h3.2.1, h4.2.1⟩

/-! ### Invalid and saturated readings -/

/-- C6: whenever `readLux` returns and the validity flag is false in the state
it leaves (status bit 7 was set at the final raw read; `getMeasurementRate`
does not touch the flag), the value returned is exactly 0.0, whatever the
channel counts, the gain code and the integration-time code are. -/
theorem readLux_invalid_zero (w : TwoWire) (fuel : Nat) (s s1 : State) (lux : Double)
    (h : readLux w fuel s = some (s1, lux)) (hv : s1._valid = false) :
    lux = Double.finite 0.0 := by
  rcases readLux_result w fuel s s1 lux h with h1 | h1
  · exact h1.2
  · rw [h1.2, readLux_convert_invalid s1 hv]

/-- C6, on a register-file sensor whose status byte is 0x84 (new data, invalid)
and whose channels read 65535 and 0: `readLux` returns 0.0. -/
theorem readLux_invalid_zero_witness :
    (readLux (sensor 0x84 65535 0) 1 zeroState).map Prod.snd = some (Double.finite 0.0) := by
  cases h : readLux (sensor 0x84 65535 0) 1 zeroState with
  | none => exact absurd h (by decide)
  | some r =>
    have hv : r.1._valid = false := by
      have h2 : (readLux (sensor 0x84 65535 0) 1 zeroState).map (fun r => r.1._valid)
          = some false := by decide
      rw [h] at h2
      simpa using h2
    rw [Option.map_some', readLux_invalid_zero (sensor 0x84 65535 0) 1 zeroState r.1 r.2 h hv]

/-- C7, refuted at a register-file sensor whose status byte is 0x04 (new data,
valid, gain 0) and whose channels read `ch0 = 65535`, `ch1 = 0`: the channel
sum is 65535, yet `readLux` returns 1.7743 * 65535 = 116278.7505, not 0.0. -/
theorem readLux_saturated_valid_nonzero :
    (readLux (sensor 0x04 65535 0) 1 zeroState).map
        (fun r => (r.1._valid, r.1._ch0 + r.1._ch1, r.2))
      = some (true, 65535, Double.finite 116278.7505)
    ∧ Double.finite 116278.7505 ≠ Double.finite 0.0 := by
  constructor
  · cases h : readLux (sensor 0x04 65535 0) 1 zeroState with
    | none => exact absurd h (by decide)
    | some r =>
      have h2 : (readLux (sensor 0x04 65535 0) 1 zeroState).map
          (fun r => (r.1._valid, r.1._ch0, r.1._ch1, r.1._gain, r.1._integrationTime))
          = some (true, 65535, 0, 0, 0) := by decide
      rw [h] at h2
      simp only [Option.map_some', Option.some.injEq, Prod.mk.injEq] at h2
      obtain ⟨hv, h0, h1, hg, ht⟩ := h2
      have h3 : r.2 = readLux_convert r.1 := by
        rcases readLux_result _ _ _ r.1 r.2 h with h4 | h4
        · exact absurd h4.1 (by decide)
        · exact h4.2
      rw [Option.map_some', h3,
        readLux_convert_valid r.1 hv (by omega) (by simp [hg]) (by omega), hv, h0, h1, hg, ht]
      norm_num [spec_lux, spec_timefactor, spec_gainfactor]
  · intro h
    injection h with h
    norm_num at h

/-- C7 as amended: for a final reading whose channel sum is 65535 or more,
`readLux` returns 0.0 when the validity flag is false; when the flag is true
(and the first raw read succeeded) the sum is not examined and the value of
the ratio formula is returned. -/
theorem readLux_saturated (w : TwoWire) (fuel : Nat) (s s1 : State) (lux : Double)
    (h : readLux w fuel s = some (s1, lux)) (hsum : s1._ch0 + s1._ch1 ≥ 65535) :
    (s1._valid = false → lux = Double.finite 0.0)
      ∧ (s1._valid = true → (readData w fuel s).map Prod.snd = some true →
          s1._gain ∈ [0, 1, 2, 3, 6, 7] → s1._integrationTime ≤ 7 →
          lux = Double.finite (spec_lux s1._ch0 s1._ch1 s1._gain s1._integrationTime)) := by
  constructor
  · intro hv
    rcases readLux_result w fuel s s1 lux h with h1 | h1
    · exact h1.2
    · rw [h1.2, readLux_convert_invalid s1 hv]
  · intro hv hok hg ht
    rcases readLux_result w fuel s s1 lux h with h2 | h2
    · rw [hok] at h2
      exact absurd h2.1 (by decide)
    · rw [h2.2, readLux_convert_valid s1 hv (by omega) hg ht]

/-- C7 as amended, on the register-file sensor with status byte 0x84 (new
data, invalid) and channels 65535 and 0: `readLux` returns 0.0. -/
theorem readLux_saturated_witness :
    (readLux (sensor 0x84 65535 0) 1 zeroState).map
        (fun r => (r.1._valid, r.1._ch0 + r.1._ch1, r.2))
      = some (false, 65535, Double.finite 0.0) := by
  cases h : readLux (sensor 0x84 65535 0) 1 zeroState with
  | none => exact absurd h (by decide)
  | some r =>
    have h2 : (readLux (sensor 0x84 65535 0) 1 zeroState).map
        (fun r => (r.1._valid, r.1._ch0 + r.1._ch1)) = some (false, 65535) := by decide
    rw [h] at h2
    simp only [Option.map_some', Option.some.injEq, Prod.mk.injEq] at h2
    rw [Option.map_some',
      (readLux_saturated (sensor 0x84 65535 0) 1 zeroState r.1 r.2 h (by omega)).1 h2.1,
      h2.1, h2.2]

/-! ### Raw data -/

theorem readByte_channels (w : TwoWire) (s : State) (a v : Nat) :
    (readByte w s a v).1._ch0 = s._ch0 ∧ (readByte w s a v).1._ch1 = s._ch1 := by
  rw [readByte_frame]
  exact ⟨rfl, rfl⟩

theorem readStatus_channels (w : TwoWire) (s : State) :
    (readStatus w s).1._ch0 = s._ch0 ∧ (readStatus w s).1._ch1 = s._ch1 := by
  have h := readByte_channels w s LTR329_STATUS 0
  unfold readStatus
  rcases hr : readByte w s LTR329_STATUS 0 with ⟨s1, st, ok⟩
  rw [hr] at h
  cases ok <;> exact h

theorem pollStatus_channels (w : TwoWire) :
    ∀ (fuel : Nat) (s s1 : State), pollStatus w fuel s = some s1 →
      s1._ch0 = s._ch0 ∧ s1._ch1 = s._ch1 := by
  intro fuel
  induction fuel with
  | zero => intro s s1 h; simp [pollStatus] at h
  | succ n ih =>
    intro s s1 h
    simp only [pollStatus] at h
    have hs := readStatus_channels w s
    split at h
    · cases h; exact hs
    · have := ih _ _ h
      exact ⟨this.1.trans hs.1, this.2.trans hs.2⟩

/-- C9: when the polling loop of `readData` has ended in state `sp`, the
address phase at register 0x88 is acknowledged and the request delivers the
four bytes `b0, b1, b2, b3` in that order, `readData` returns and the stored
counts are `ch1 = b1*256 + b0` and `ch0 = b3*256 + b2`, each below 65536. -/
theorem readData_decodes (w : TwoWire) (fuel : Nat) (s sp : State) (b0 b1 b2 b3 : Nat)
    (hp : pollStatus w fuel s = some sp)
    (herr : w.endTransmission (WireOp.endTransmission [0x88] :: sp.trace) % 256 = 0)
    (hrx : w.requestFrom (WireOp.requestFrom 4 :: WireOp.endTransmission [0x88] :: sp.trace)
      = [b0, b1, b2, b3])
    (h0 : b0 < 256) (h1 : b1 < 256) (h2 : b2 < 256) (h3 : b3 < 256) :
    ∃ (s1 : State) (r : Bool), readData w fuel s = some (s1, r)
      ∧ s1._ch1 = b1 * 256 + b0 ∧ s1._ch0 = b3 * 256 + b2
      ∧ s1._ch1 < 65536 ∧ s1._ch0 < 65536 := by
  refine ⟨(readStatus w (readData_transfer w sp)).1, (readStatus w (readData_transfer w sp)).2,
    ?_, ?_⟩
  · unfold readData
    rw [hp]
  · have hs := readStatus_channels w (readData_transfer w sp)
    have ht : (readData_transfer w sp)._ch1 = b1 * 256 + b0
        ∧ (readData_transfer w sp)._ch0 = b3 * 256 + b2 := by
      unfold readData_transfer
      simp only [LTR329_DATA_CH1_0, herr, hrx, if_true, word]
      constructor <;> omega
    rw [hs.1, hs.2, ht.1, ht.2]
    refine ⟨rfl, rfl, ?_, ?_⟩ <;> omega

/-- C9, on a register-file sensor whose data registers 0x88..0x8B hold
0x64, 0x00, 0xF4, 0x01: `readData` stores `ch1 = 100` and `ch0 = 500`. -/
theorem readData_decodes_witness :
    ∃ (s1 : State) (r : Bool), readData (sensor 0x04 500 100) 1 zeroState = some (s1, r)
      ∧ s1._ch1 = 0x00 * 256 + 0x64 ∧ s1._ch0 = 0x01 * 256 + 0xF4
      ∧ s1._ch1 < 65536 ∧ s1._ch0 < 65536 :=
  readData_decodes (sensor 0x04 500 100) 1 zeroState
    { zeroState with _valid := true, _newData := true
                     trace := [.requestFrom 1, .endTransmission [0x8C]] }
    0x64 0x00 0xF4 0x01 (by decide) (by decide) (by decide) (by decide) (by decide)
    (by decide) (by decide)

/-- C10: when the polling loop of `readData` has ended in state `sp`,
`readData` returns the result of the status read it performs after the block
transfer; and if the address phase of the block transfer reports a non-zero
error code, or the number of bytes available is not 4, both channel counts
keep the values they had when `readData` was called. -/
theorem readData_transfer_failed (w : TwoWire) (fuel : Nat) (s sp : State)
    (hp : pollStatus w fuel s = some sp) :
    readData w fuel s = some (readStatus w (readData_transfer w sp))
      ∧ ((w.endTransmission (WireOp.endTransmission [0x88] :: sp.trace) % 256 ≠ 0
            ∨ (w.requestFrom
                (WireOp.requestFrom 4 :: WireOp.endTransmission [0x88] :: sp.trace)).length ≠ 4)
          → (readStatus w (readData_transfer w sp)).1._ch0 = s._ch0
            ∧ (readStatus w (readData_transfer w sp)).1._ch1 = s._ch1) := by
  constructor
  · unfold readData
    rw [hp]
  · intro hfail
    have hs := readStatus_channels w (readData_transfer w sp)
    have hpc := pollStatus_channels w fuel s sp hp
    have ht : (readData_transfer w sp)._ch0 = sp._ch0
        ∧ (readData_transfer w sp)._ch1 = sp._ch1 := by
      unfold readData_transfer
      simp only [LTR329_DATA_CH1_0]
      split
      · rename_i he
        rcases hfail with hf | hf
        · exact absurd he hf
        · split
          · rename_i hl
            rw [hl] at hf
            exact absurd rfl hf
          · exact ⟨rfl, rfl⟩
      · exact ⟨rfl, rfl⟩
    rw [hs.1, hs.2, ht.1, ht.2]
    exact hpc

/-- C10, on a sensor that does not acknowledge the block transfer: `readData`
called with `ch0 = 7`, `ch1 = 9` returns true and leaves both counts as they
were, although the data registers hold 500 and 100. -/
theorem readData_transfer_failed_witness :
    (readData (sensorNoData 500 100) 1 { zeroState with _ch0 := 7, _ch1 := 9 }).map
        (fun r => (r.2, r.1._ch0, r.1._ch1, r.1._error))
      = some (true, 7, 9, 0) := by
  rw [(readData_transfer_failed (sensorNoData 500 100) 1 { zeroState with _ch0 := 7, _ch1 := 9 }
    { zeroState with _ch0 := 7, _ch1 := 9, _valid := true, _newData := true
                     trace := [.requestFrom 1, .endTransmission [0x8C]] } (by decide)).1]
  decide

/-! ### The cached gain code -/

theorem readByte_true (w : TwoWire) (s s1 : State) (a v x : Nat)
    (h : readByte w s a v = (s1, x, true)) :
    ∃ b : Nat, w.requestFrom (WireOp.requestFrom 1 :: WireOp.endTransmission [a] :: s.trace) = [b]
      ∧ x = b % 256 := by
  unfold readByte at h
  simp only at h
  split at h
  · split at h
    · rename_i b hb
      simp only [Prod.mk.injEq] at h
      exact ⟨b, hb, h.2.1.symm⟩
    · simp at h
  · simp at h

theorem readByte_gain (w : TwoWire) (s : State) (a v : Nat) :
    (readByte w s a v).1._gain = s._gain := by
  rw [readByte_frame]

theorem writeByte_gain (w : TwoWire) (s : State) (a v : Nat) :
    (writeByte w s a v).1._gain = s._gain := by
  unfold writeByte
  dsimp only
  split <;> rfl

theorem LegalGain.mod (g : Nat) (h : LegalGain g) : LegalGain (g % 256) := by
  unfold LegalGain at *
  simp only [List.mem_cons, List.mem_singleton, List.not_mem_nil, or_false] at *
  omega

theorem readData_transfer_gain (w : TwoWire) (s : State) :
    (readData_transfer w s)._gain = s._gain := by
  unfold readData_transfer
  dsimp only
  split
  · split <;> rfl
  · rfl

theorem reset_gain (w : TwoWire) (s : State) : (reset w s).1._gain = s._gain := by
  have hf := readByte_gain w s LTR329_CONTR s._control
  unfold reset
  rcases hr : readByte w s LTR329_CONTR s._control with ⟨s1, c, ok⟩
  rw [hr] at hf
  simp only at hf ⊢
  rw [writeByte_gain]
  exact hf

theorem activate_gain (w : TwoWire) (s : State) : (activate w s).1._gain = s._gain := by
  have hf := readByte_gain w s LTR329_CONTR s._control
  unfold activate
  rcases hr : readByte w s LTR329_CONTR s._control with ⟨s1, c, ok⟩
  rw [hr] at hf
  simp only at hf ⊢
  rw [writeByte_gain]
  exact hf

theorem setMeasurementRate_gain (w : TwoWire) (s : State) (it mr : Nat) :
    (setMeasurementRate w s it mr).1._gain = s._gain := by
  unfold setMeasurementRate
  simp only
  rw [writeByte_gain]

theorem getMeasurementRate_gain (w : TwoWire) (s : State) :
    (getMeasurementRate w s).1._gain = s._gain := by
  have hf := readByte_gain w s LTR329_MEAS_RATE 0
  unfold getMeasurementRate
  rcases hr : readByte w s LTR329_MEAS_RATE 0 with ⟨s1, c, ok⟩
  rw [hr] at hf
  cases ok <;> exact hf

theorem getPartID_gain (w : TwoWire) (s : State) : (getPartID w s).1._gain = s._gain := by
  have hf := readByte_gain w s LTR329_PART_ID 0
  unfold getPartID
  rcases hr : readByte w s LTR329_PART_ID 0 with ⟨s1, c, ok⟩
  rw [hr] at hf
  cases ok <;> exact hf

theorem getManufacID_gain (w : TwoWire) (s : State) :
    (getManufacID w s).1._gain = s._gain := by
  have hf := readByte_gain w s LTR329_MANUFAC_ID 0
  unfold getManufacID
  rcases hr : readByte w s LTR329_MANUFAC_ID 0 with ⟨s1, c, ok⟩
  rw [hr] at hf
  cases ok <;> exact hf

theorem legalGain_zero : LegalGain 0 := by decide

theorem legalGain_gainfactor (g : Nat) (h : LegalGain g) :
    ∃ gf : ℚ, _gainfactor[g]? = some gf ∧ gf ≠ 0 := by
  unfold LegalGain at h
  simp only [List.mem_cons, List.mem_singleton, List.not_mem_nil, or_false] at h
  rcases h with rfl | rfl | rfl | rfl | rfl | rfl <;> norm_num [_gainfactor]

/-- C8, refuted: from a state whose cached gain is 0, `readStatus` on a status
byte 0x40 and `getControl` on a control byte 0x10 both cache the reserved gain
code 4; `begin` on a sensor whose status byte is 0x44 returns true with cached
gain 4; and `readLux` on that sensor divides by the reserved 0.0 entry of
`_gainfactor` and returns a value that is not finite. -/
theorem gain_invariant_broken :
    LegalGain zeroState._gain
      ∧ (readStatus (sensor 0x40 0 0) zeroState).1._gain = 4
      ∧ (getControl (registerFile (fun _ => 0x10)) zeroState).1._gain = 4
      ∧ ¬ LegalGain 4
      ∧ (begin (sensor 0x44 0 0) 1 zeroState).map (fun r => (r.2, r.1._gain)) = some (true, 4)
      ∧ (readLux (sensor 0x44 100 100) 1 zeroState).map Prod.snd = some Double.nonFinite := by
  refine ⟨by decide, by decide, by decide, by decide, by decide, ?_⟩
  cases h : readLux (sensor 0x44 100 100) 1 zeroState with
  | none => exact absurd h (by decide)
  | some r =>
    have h2 : (readLux (sensor 0x44 100 100) 1 zeroState).map
        (fun r => (r.1._valid, r.1._ch0, r.1._ch1, r.1._gain, r.1._integrationTime))
        = some (true, 100, 100, 4, 0) := by decide
    rw [h] at h2
    simp only [Option.map_some', Option.some.injEq, Prod.mk.injEq] at h2
    obtain ⟨hv, h0, h1, hg, ht⟩ := h2
    have h3 : r.2 = readLux_convert r.1 := by
      rcases readLux_result _ _ _ r.1 r.2 h with h4 | h4
      · exact absurd h4.1 (by decide)
      · exact h4.2
    rw [Option.map_some', h3]
    simp only [readLux_convert, readLux_factor, hv, h0, h1, hg, ht, _gainfactor, _timefactor]
    norm_num [readLux_scale]

/-! ### Status decoding -/

theorem status_bits (b : Nat) (h : b < 256) :
    ((b &&& 0x70) >>> 4) % 256 = (b / 16) % 8
      ∧ (!((b &&& 0x80) != 0)) = !b.testBit 7
      ∧ ((b &&& 0x04) != 0) = b.testBit 2 := by
  interval_cases b <;> decide

theorem readStatus_ok (w : TwoWire) (s : State) (b : Nat) (hb : b < 256)
    (hack : w.endTransmission (WireOp.endTransmission [LTR329_STATUS] :: s.trace) % 256 = 0)
    (hrx : w.requestFrom
      (WireOp.requestFrom 1 :: WireOp.endTransmission [LTR329_STATUS] :: s.trace) = [b]) :
    readStatus w s
      = ({ s with trace := WireOp.requestFrom 1 :: WireOp.endTransmission [LTR329_STATUS]
                    :: s.trace
                  _error := 0
                  _valid := !b.testBit 7
                  _gain := (b / 16) % 8
                  _newData := b.testBit 2 }, true) := by
  unfold readStatus
  rw [readByte_ok w s LTR329_STATUS 0 b hack hrx]
  have hm : b % 256 = b := Nat.mod_eq_of_lt hb
  have h := status_bits b hb
  simp only [if_true, hm, h.1, h.2.1, h.2.2]

theorem readByte_fail (w : TwoWire) (s : State) (a v : Nat)
    (h : w.endTransmission (WireOp.endTransmission [a] :: s.trace) % 256 ≠ 0
      ∨ (w.requestFrom (WireOp.requestFrom 1 :: WireOp.endTransmission [a] :: s.trace)).length
          ≠ 1) :
    (readByte w s a v).2 = (v, false) := by
  unfold readByte
  simp only
  split
  · rename_i he
    rcases h with h | h
    · exact absurd he h
    · split
      · rename_i b hb
        rw [hb] at h
        exact absurd rfl h
      · rfl
  · rfl

/-- C11: a `readStatus` whose status read succeeds with byte `b` returns true
and sets validity to "bit 7 of `b` clear", the cached gain to bits 6:4 of `b`
and new-data to "bit 2 of `b` set"; a second `readStatus` that reads the same
byte leaves the same three values; a `readStatus` whose read fails (error code
non-zero, or not exactly one byte available) returns false and leaves
validity, gain and new-data as they were. -/
theorem readStatus_decodes (w : TwoWire) (s : State) (b : Nat) :
    (b < 256 →
      w.endTransmission (WireOp.endTransmission [0x8C] :: s.trace) % 256 = 0 →
      w.requestFrom (WireOp.requestFrom 1 :: WireOp.endTransmission [0x8C] :: s.trace) = [b] →
        (readStatus w s).2 = true
        ∧ (readStatus w s).1._valid = !b.testBit 7
        ∧ (readStatus w s).1._gain = (b / 16) % 8
        ∧ (readStatus w s).1._newData = b.testBit 2
        ∧ (w.endTransmission
              (WireOp.endTransmission [0x8C] :: (readStatus w s).1.trace) % 256 = 0 →
            w.requestFrom (WireOp.requestFrom 1 :: WireOp.endTransmission [0x8C]
              :: (readStatus w s).1.trace) = [b] →
            (readStatus w (readStatus w s).1).2 = true
            ∧ (readStatus w (readStatus w s).1).1._valid = (readStatus w s).1._valid
            ∧ (readStatus w (readStatus w s).1).1._gain = (readStatus w s).1._gain
            ∧ (readStatus w (readStatus w s).1).1._newData = (readStatus w s).1._newData))
    ∧ ((w.endTransmission (WireOp.endTransmission [0x8C] :: s.trace) % 256 ≠ 0
          ∨ (w.requestFrom
              (WireOp.requestFrom 1 :: WireOp.endTransmission [0x8C] :: s.trace)).length ≠ 1) →
        (readStatus w s).2 = false
        ∧ (readStatus w s).1._valid = s._valid
        ∧ (readStatus w s).1._gain = s._gain
        ∧ (readStatus w s).1._newData = s._newData) := by
  constructor
  · intro hb hack hrx
    have h1 := readStatus_ok w s b hb hack hrx
    refine ⟨by rw [h1], by rw [h1], by rw [h1], by rw [h1], ?_⟩
    intro hack2 hrx2
    have h2 := readStatus_ok w (readStatus w s).1 b hb hack2 hrx2
    rw [h2, h1]
    exact ⟨rfl, rfl, rfl, rfl⟩
  · intro hf
    have hr := readByte_fail w s LTR329_STATUS 0 hf
    have hfr := readByte_frame w s LTR329_STATUS 0
    unfold readStatus
    rcases hrb : readByte w s LTR329_STATUS 0 with ⟨s1, st, ok⟩
    rw [hrb] at hr hfr
    simp only [Prod.mk.injEq] at hr
    simp only at hfr
    rw [hr.2]
    simp only [Bool.false_eq_true, if_false]
    rw [hfr]
    exact ⟨trivial, rfl, rfl, rfl⟩

/-- C11, on a register-file sensor whose status byte is 0x94: `readStatus`
returns true with validity false, gain 1 and new-data true, and a second call
leaves the same values; on a sensor that acknowledges nothing, `readStatus`
returns false and leaves the three values of the state it was called in. -/
theorem readStatus_decodes_witness :
    ((readStatus (sensor 0x94 0 0) zeroState).2 = true
      ∧ (readStatus (sensor 0x94 0 0) zeroState).1._valid = false
      ∧ (readStatus (sensor 0x94 0 0) zeroState).1._gain = 1
      ∧ (readStatus (sensor 0x94 0 0) zeroState).1._newData = true)
    ∧ (readStatus (sensor 0x94 0 0) (readStatus (sensor 0x94 0 0) zeroState).1).1._gain = 1
    ∧ ((readStatus deadDevice { zeroState with _valid := true, _gain := 6, _newData := true }).2
          = false
      ∧ (readStatus deadDevice
          { zeroState with _valid := true, _gain := 6, _newData := true }).1._valid = true
      ∧ (readStatus deadDevice
          { zeroState with _valid := true, _gain := 6, _newData := true }).1._gain = 6
      ∧ (readStatus deadDevice
          { zeroState with _valid := true, _gain := 6, _newData := true }).1._newData = true) := by
  have h := (readStatus_decodes (sensor 0x94 0 0) zeroState 0x94).1 (by decide) (by decide)
    (by decide)
  refine ⟨⟨h.1, h.2.1, h.2.2.1, h.2.2.2.1⟩, ?_, ?_⟩
  · rw [(h.2.2.2.2 (by decide) (by decide)).2.2.1]
    exact h.2.2.1
  · exact (readStatus_decodes deadDevice
      { zeroState with _valid := true, _gain := 6, _newData := true } 0).2 (Or.inl (by decide))

/-! ### The polling loop -/

theorem readStatus_dead (s : State) :
    readStatus deadDevice s
      = ({ s with trace := WireOp.endTransmission [LTR329_STATUS] :: s.trace, _error := 2 },
          false) := by
  rfl

theorem pollStatus_dead (fuel : Nat) :
    ∀ s : State, s._newData = false → pollStatus deadDevice fuel s = none := by
  induction fuel with
  | zero => intro s _; rfl
  | succ n ih =>
    intro s hs
    simp only [pollStatus, readStatus_dead, hs, Bool.false_eq_true, if_false]
    exact ih _ rfl

/-- C12, evaluated on a bus where no transmission is acknowledged: called with
the cached new-data flag true, `readData` leaves its polling loop after one
failed status read, starts the block transfer at the data registers and
returns false; called with the flag false, it does not return for any bound on
the number of polls. -/
theorem readData_stale_newData :
    (readData deadDevice 1 { zeroState with _newData := true }).map
        (fun r => (r.2, r.1.trace))
      = some (false, [WireOp.endTransmission [0x8C], WireOp.endTransmission [0x88],
          WireOp.endTransmission [0x8C]])
    ∧ ∀ fuel : Nat, readData deadDevice fuel { zeroState with _newData := false } = none := by
  constructor
  · decide
  · intro fuel
    unfold readData
    rw [pollStatus_dead fuel _ rfl]

/-! ### Failure of the first raw read of `readLux` -/

/-- C13: if the first `readData` of `readLux` returns false in state `s1`,
`readLux` returns 0.0 in that same state: nothing follows the raw read on the
bus (no recovery, no auto-gain, no further read), and since the raw read
itself writes no register, no register is written. -/
theorem readLux_first_read_failed (w : TwoWire) (fuel : Nat) (s s1 : State)
    (h : readData w fuel s = some (s1, false)) :
    readLux w fuel s = some (s1, Double.finite 0.0)
      ∧ (∀ a : Nat, writesTo a s1.trace = writesTo a s.trace)
      ∧ rawReads s1.trace = rawReads s.trace + 1 := by
  refine ⟨?_, fun a => readData_writesTo w fuel s s1 false a h,
    readData_rawReads w fuel s s1 false h⟩
  unfold readLux
  simp only [h, Bool.not_false, if_true]

/-- C13, on a bus where no transmission is acknowledged and with the cached
new-data flag true: the first raw read returns false, and `readLux` returns
0.0 after the three transmissions of that raw read. -/
theorem readLux_first_read_failed_witness :
    readLux deadDevice 1 { zeroState with _newData := true }
      = some ({ zeroState with _newData := true, _error := 2
                               trace := [WireOp.endTransmission [0x8C],
                                 WireOp.endTransmission [0x88],
                                 WireOp.endTransmission [0x8C]] }, Double.finite 0.0) :=
  (readLux_first_read_failed deadDevice 1 { zeroState with _newData := true } _
    (by decide)).1

/-! ### Return values and cache of the setters -/

theorem writeByte_eq (w : TwoWire) (s : State) (a v : Nat) :
    writeByte w s a v
      = ({ s with trace := WireOp.endTransmission [a, v] :: s.trace
                  _error := w.endTransmission (WireOp.endTransmission [a, v] :: s.trace) % 256 },
          decide (w.endTransmission (WireOp.endTransmission [a, v] :: s.trace) % 256 = 0)) := by
  unfold writeByte
  by_cases h : w.endTransmission (WireOp.endTransmission [a, v] :: s.trace) % 256 = 0
  · simp only [h, if_true, decide_True]
  · simp only [h, if_false, decide_False]

/-- C14: for every pair of arguments and every device, `setMeasurementRate`
issues the single write of `(it' << 3) | mr'` to MEAS_RATE, returns true
exactly when that write is acknowledged, and in both cases leaves the cached
integration-time and measurement-rate codes equal to the coerced arguments
(`it' = it` if `it <= 7` else 0, `mr' = mr` if `mr <= 7` else 3). -/
theorem setMeasurementRate_caches (w : TwoWire) (s : State) (it mr : Nat) :
    (setMeasurementRate w s it mr).1._integrationTime = (if it ≤ 7 then it else 0)
      ∧ (setMeasurementRate w s it mr).1._measurementRate = (if mr ≤ 7 then mr else 3)
      ∧ (setMeasurementRate w s it mr).1.trace
          = WireOp.endTransmission
              [0x85, ((if it ≤ 7 then it else 0) <<< 3) ||| (if mr ≤ 7 then mr else 3)]
            :: s.trace
      ∧ ((setMeasurementRate w s it mr).2 = true
          ↔ w.endTransmission (setMeasurementRate w s it mr).1.trace % 256 = 0) := by
  have hi : spec_integrationTime it = (if it ≤ 7 then it else 0) := by
    unfold spec_integrationTime
    split_ifs <;> omega
  have hm : spec_measurementRate mr = (if mr ≤ 7 then mr else 3) := by
    unfold spec_measurementRate
    split_ifs <;> omega
  rw [setMeasurementRate_eq, hi, hm, writeByte_eq]
  refine ⟨rfl, rfl, rfl, ?_⟩
  simp only [decide_eq_true_eq]

/-- C15, evaluated on a register-file device (CONTROL = 0x01, active) that
does not acknowledge the first transmission: the initial read of CONTROL in
`setGain 6` fails, the write and the re-read succeed, and `setGain` returns
true; the byte written, 0x18, takes its bits 1:0 from the stale `_control` (0)
and not from the device. -/
theorem setGain_ignores_first_read :
    (readByte (sensorFirstNack 0x01) zeroState LTR329_CONTR zeroState._control).2.2 = false
      ∧ (setGain (sensorFirstNack 0x01) zeroState 6).2 = true
      ∧ (setGain (sensorFirstNack 0x01) zeroState 6).1.trace
          = [WireOp.requestFrom 1, WireOp.endTransmission [0x80],
             WireOp.endTransmission [0x80, 0x18], WireOp.endTransmission [0x80]] := by
  decide

/-! ### Identification -/

theorem partID_bits (p : Nat) (h : p < 256) :
    ((p % 256 &&& 0xF0) >>> 4) % 256 = p / 16 ∧ (p % 256 &&& 0x0F) % 256 = p % 16 := by
  interval_cases p <;> decide

theorem begin_identify (w : TwoWire) (s : State) (p m : Nat) (hp : p < 256) (hm : m < 256)
    (hack1 : w.endTransmission (WireOp.endTransmission [0x86] :: s.trace) % 256 = 0)
    (hrx1 : w.requestFrom (WireOp.requestFrom 1 :: WireOp.endTransmission [0x86] :: s.trace)
      = [p])
    (hack2 : w.endTransmission (WireOp.endTransmission [0x87] :: WireOp.requestFrom 1
      :: WireOp.endTransmission [0x86] :: s.trace) % 256 = 0)
    (hrx2 : w.requestFrom (WireOp.requestFrom 1 :: WireOp.endTransmission [0x87]
      :: WireOp.requestFrom 1 :: WireOp.endTransmission [0x86] :: s.trace) = [m]) :
    (getManufacID w (getPartID w
        { s with _gain := 0, _valid := true, _newData := false }).1).1
      = { s with _gain := 0, _valid := true, _newData := false, _error := 0
                 _partID := p / 16, _revisionID := p % 16, _manufacID := m
                 trace := WireOp.requestFrom 1 :: WireOp.endTransmission [0x87]
                   :: WireOp.requestFrom 1 :: WireOp.endTransmission [0x86] :: s.trace } := by
  have hb := partID_bits p hp
  have h1 : getPartID w { s with _gain := 0, _valid := true, _newData := false }
      = ({ s with _gain := 0, _valid := true, _newData := false, _error := 0
                  _partID := p / 16, _revisionID := p % 16
                  trace := WireOp.requestFrom 1 :: WireOp.endTransmission [0x86] :: s.trace },
          true) := by
    unfold getPartID
    rw [readByte_ok w { s with _gain := 0, _valid := true, _newData := false }
      LTR329_PART_ID 0 p hack1 hrx1]
    simp only [if_true, hb.1, hb.2]
    rfl
  rw [h1]
  unfold getManufacID
  rw [readByte_ok w
    { s with _gain := 0, _valid := true, _newData := false, _error := 0
             _partID := p / 16, _revisionID := p % 16
             trace := WireOp.requestFrom 1 :: WireOp.endTransmission [0x86] :: s.trace }
    LTR329_MANUFAC_ID 0 m hack2 hrx2]
  simp only [if_true, Nat.mod_mod, Nat.mod_eq_of_lt hm]
  rfl

/-- C16: when the PART_ID and MANUFAC_ID registers are read successfully as
bytes `p` and `m`, `begin` returns true exactly when the high nibble of `p` is
0x0A and `m` is 0x05 (the low nibble of `p` plays no part); if they match,
`begin` returns as soon as its raw read returns; if they do not, `begin`
returns false right after the two identification reads, with no register
written and no raw read started. -/
theorem begin_identification (w : TwoWire) (fuel : Nat) (s : State) (p m : Nat)
    (hp : p < 256) (hm : m < 256)
    (hack1 : w.endTransmission (WireOp.endTransmission [0x86] :: s.trace) % 256 = 0)
    (hrx1 : w.requestFrom (WireOp.requestFrom 1 :: WireOp.endTransmission [0x86] :: s.trace)
      = [p])
    (hack2 : w.endTransmission (WireOp.endTransmission [0x87] :: WireOp.requestFrom 1
      :: WireOp.endTransmission [0x86] :: s.trace) % 256 = 0)
    (hrx2 : w.requestFrom (WireOp.requestFrom 1 :: WireOp.endTransmission [0x87]
      :: WireOp.requestFrom 1 :: WireOp.endTransmission [0x86] :: s.trace) = [m]) :
    (∀ (s1 : State) (r : Bool), begin w fuel s = some (s1, r) →
        (r = true ↔ (p / 16 = 0x0A ∧ m = 0x05)))
      ∧ ((p / 16 = 0x0A ∧ m = 0x05) →
          ∀ (s1 : State) (r : Bool),
            readData w fuel (activate w (reset w
              (getManufacID w (getPartID w
                { s with _gain := 0, _valid := true, _newData := false }).1).1).1).1
              = some (s1, r) →
            begin w fuel s = some (s1, true))
      ∧ (¬ (p / 16 = 0x0A ∧ m = 0x05) →
          ∃ s1 : State, begin w fuel s = some (s1, false)
            ∧ s1.trace = WireOp.requestFrom 1 :: WireOp.endTransmission [0x87]
                :: WireOp.requestFrom 1 :: WireOp.endTransmission [0x86] :: s.trace
            ∧ (∀ a : Nat, writesTo a s1.trace = writesTo a s.trace)
            ∧ rawReads s1.trace = rawReads s.trace) := by
  have hid := begin_identify w s p m hp hm hack1 hrx1 hack2 hrx2
  have hcond : ((getManufacID w (getPartID w
        { s with _gain := 0, _valid := true, _newData := false }).1).1._partID = 0x0A
      ∧ (getManufacID w (getPartID w
        { s with _gain := 0, _valid := true, _newData := false }).1).1._manufacID = 0x05)
      ↔ (p / 16 = 0x0A ∧ m = 0x05) := by
    rw [hid]
  refine ⟨?_, ?_, ?_⟩
  · intro s1 r h
    unfold begin at h
    simp only at h
    by_cases hc : p / 16 = 0x0A ∧ m = 0x05
    · rw [if_pos (hcond.mpr hc)] at h
      split at h
      · cases h
      · simp only [Option.some.injEq, Prod.mk.injEq] at h
        exact ⟨fun _ => hc, fun _ => h.2.symm⟩
    · rw [if_neg (fun h' => hc (hcond.mp h'))] at h
      simp only [Option.some.injEq, Prod.mk.injEq] at h
      constructor
      · intro hr
        rw [hr] at h
        exact absurd h.2 (by decide)
      · intro h'
        exact absurd h' hc
  · intro hc s1 r hrd
    unfold begin
    simp only
    rw [if_pos (hcond.mpr hc), hrd]
  · intro hc
    refine ⟨(getManufacID w (getPartID w
        { s with _gain := 0, _valid := true, _newData := false }).1).1, ?_, ?_, ?_, ?_⟩
    · unfold begin
      simp only
      rw [if_neg (fun h' => hc (hcond.mp h'))]
    · rw [hid]
    · intro a
      rw [hid]
      simp [writesTo]
    · rw [hid]
      simp [rawReads, LTR329_DATA_CH1_0]

/-- C16, on register files: with PART_ID = 0xA3 and MANUFAC_ID = 0x05 `begin`
returns true; with PART_ID = 0xA3 and MANUFAC_ID = 0x06 it returns false after
the two identification reads. -/
theorem begin_identification_witness :
    (begin (registerFile (fun a =>
        if a = 0x86 then 0xA3 else if a = 0x87 then 0x05 else 0x04)) 1 zeroState).map Prod.snd
      = some true
    ∧ (begin (registerFile (fun a =>
        if a = 0x86 then 0xA3 else if a = 0x87 then 0x06 else 0x04)) 1 zeroState).map
          (fun r => (r.2, r.1.trace))
      = some (false, [WireOp.requestFrom 1, WireOp.endTransmission [0x87],
          WireOp.requestFrom 1, WireOp.endTransmission [0x86]]) := by
  constructor
  · cases h : begin (registerFile (fun a =>
        if a = 0x86 then 0xA3 else if a = 0x87 then 0x05 else 0x04)) 1 zeroState with
    | none => exact absurd h (by decide)
    | some r =>
      rw [Option.map_some', ((begin_identification _ 1 zeroState 0xA3 0x05 (by decide)
        (by decide) (by decide) (by decide) (by decide) (by decide)).1 r.1 r.2 h).mpr
        (by decide)]
  · obtain ⟨s1, h1, h2, _⟩ := (begin_identification (registerFile (fun a =>
        if a = 0x86 then 0xA3 else if a = 0x87 then 0x06 else 0x04)) 1 zeroState 0xA3 0x06
        (by decide) (by decide) (by decide) (by decide) (by decide) (by decide)).2.2
        (by decide)
    rw [h1, Option.map_some', h2]
    rfl

/-! ### The control byte written by `setGain` -/

theorem setGain_byte_eq (c g : Nat) :
    setGain_byte c g = (c &&& 0x03) ||| (spec_gain g <<< 2)
      ∧ setGain_byte c g >>> 5 = 0
      ∧ setGain_byte c g % 2 = c % 2
      ∧ (setGain_byte c g / 2) % 2 = (c / 2) % 2 := by
  have hg := spec_gain_le g
  have hx : c &&& 0x03 = c % 4 := Nat.and_pow_two_sub_one_eq_mod c 2
  have hc : c % 4 < 4 := Nat.mod_lt _ (by decide)
  have h2 : c % 2 = (c % 4) % 2 := by omega
  have h3 : (c / 2) % 2 = (c % 4) / 2 % 2 := by omega
  unfold setGain_byte
  rw [show (0b11 : Nat) = 0x03 from rfl, hx, h2, h3]
  generalize spec_gain g = k at *
  generalize c % 4 = x at *
  interval_cases x <;> interval_cases k <;> decide

/-- C18: if the initial read of the CONTROL register in `setGain g` succeeds
with byte `c`, the one byte `setGain` writes to CONTROL is
`(c AND 0x03) OR (g' << 2)` with `g' = g` for `g` in {0,1,2,3,6,7} and
`g' = 0` otherwise: its bits 1:0 (reset and mode) are those of `c`, its bits
7:5 are zero and its bits 4:2 hold `g'`; in particular the mode bit written is
the mode bit read, so the write does not switch between active and stand-by. -/
theorem setGain_control_byte (w : TwoWire) (s : State) (g c : Nat) (hc : c < 256)
    (hack : w.endTransmission (WireOp.endTransmission [0x80] :: s.trace) % 256 = 0)
    (hrx : w.requestFrom (WireOp.requestFrom 1 :: WireOp.endTransmission [0x80] :: s.trace)
      = [c]) :
    writesTo 0x80 (setGain w s g).1.trace
        = ((c &&& 0x03) ||| ((if g ∈ [0, 1, 2, 3, 6, 7] then g else 0) <<< 2))
            :: writesTo 0x80 s.trace
      ∧ ((c &&& 0x03) ||| ((if g ∈ [0, 1, 2, 3, 6, 7] then g else 0) <<< 2)) &&& 0x03
          = c &&& 0x03
      ∧ ((c &&& 0x03) ||| ((if g ∈ [0, 1, 2, 3, 6, 7] then g else 0) <<< 2)) >>> 5 = 0
      ∧ (((c &&& 0x03) ||| ((if g ∈ [0, 1, 2, 3, 6, 7] then g else 0) <<< 2)) >>> 2) &&& 7
          = (if g ∈ [0, 1, 2, 3, 6, 7] then g else 0)
      ∧ ((c &&& 0x03) ||| ((if g ∈ [0, 1, 2, 3, 6, 7] then g else 0) <<< 2)) % 2 = c % 2 := by
  have hb := setGain_byte_eq c g
  have hw := setGain_writesTo w s g
  rw [readByte_ok w s LTR329_CONTR s._control c hack hrx] at hw
  simp only [Nat.mod_eq_of_lt hc] at hw
  have hl := setGain_byte_low c g
  have hgn := setGain_byte_gain c g
  rw [hb.1] at hw hl hgn
  have h5 := hb.2.1
  have h2 := hb.2.2.1
  rw [hb.1] at h5 h2
  exact ⟨hw, hl, h5, hgn, h2⟩

/-- C18, on a register file whose CONTROL register holds 0x01 (active mode):
`setGain 6` writes 0x19 and `setGain 5` writes 0x01, both with the mode bit
still set. -/
theorem setGain_control_byte_witness :
    writesTo 0x80 (setGain (registerFile (fun _ => 0x01)) zeroState 6).1.trace = [0x19]
      ∧ writesTo 0x80 (setGain (registerFile (fun _ => 0x01)) zeroState 5).1.trace = [0x01] :=
  ⟨(setGain_control_byte (registerFile (fun _ => 0x01)) zeroState 6 0x01 (by decide)
      (by decide) (by decide)).1,
   (setGain_control_byte (registerFile (fun _ => 0x01)) zeroState 5 0x01 (by decide)
      (by decide) (by decide)).1⟩

/-! ### Sign of the lux value -/

theorem spec_factor_pos (g t : Nat) : 0 < (1 / spec_timefactor t) / spec_gainfactor g := by
  have ht : 0 < spec_timefactor t := by
    unfold spec_timefactor
    split <;> norm_num
  have hg : 0 < spec_gainfactor g := by
    unfold spec_gainfactor
    split <;> norm_num
  positivity

theorem second_branch_pos (ch0 ch1 : Nat) (hne : ¬ (ch0 = 0 ∧ ch1 = 0))
    (h : (ch1 : ℚ) / ((ch0 : ℚ) + (ch1 : ℚ)) < 0.64) :
    (0 : ℚ) < 4.2785 * ch0 - 1.9548 * ch1 := by
  have h0 : (0 : ℚ) ≤ ch0 := Nat.cast_nonneg _
  have h1 : (0 : ℚ) ≤ ch1 := Nat.cast_nonneg _
  have hs : (0 : ℚ) < (ch0 : ℚ) + (ch1 : ℚ) := by
    have : 0 < ch0 + ch1 := by omega
    exact_mod_cast this
  rw [div_lt_iff₀ hs] at h
  norm_num at h ⊢
  linarith

theorem spec_lux_nonneg (ch0 ch1 g t : Nat) (hne : ¬ (ch0 = 0 ∧ ch1 = 0)) :
    0 ≤ spec_lux ch0 ch1 g t := by
  have hf := spec_factor_pos g t
  have h0 : (0 : ℚ) ≤ ch0 := Nat.cast_nonneg _
  have h1 : (0 : ℚ) ≤ ch1 := Nat.cast_nonneg _
  unfold spec_lux
  simp only
  split_ifs with c1 c2 c3
  · apply mul_nonneg _ hf.le
    positivity
  · exact mul_nonneg (second_branch_pos ch0 ch1 hne c2.2).le hf.le
  · apply mul_nonneg _ hf.le
    positivity
  · exact le_refl 0

/-- C20: for channel counts that are not both zero, a gain code in
{0,1,2,3,6,7} and an integration-time code in 0..7, the value the conversion
of `readLux` produces, computed exactly, is finite and not negative; and for a
ratio in the second interval, `0.45 <= ch1/(ch0+ch1) < 0.64`, the expression
`4.2785*ch0 - 1.9548*ch1` is strictly positive. -/
theorem readLux_convert_nonneg (s : State) (hne : ¬ (s._ch0 = 0 ∧ s._ch1 = 0))
    (hg : s._gain ∈ [0, 1, 2, 3, 6, 7]) (ht : s._integrationTime ≤ 7) :
    (∃ q : ℚ, readLux_convert s = Double.finite q ∧ 0 ≤ q)
      ∧ (0.45 ≤ (s._ch1 : ℚ) / ((s._ch0 : ℚ) + (s._ch1 : ℚ)) →
          (s._ch1 : ℚ) / ((s._ch0 : ℚ) + (s._ch1 : ℚ)) < 0.64 →
          (0 : ℚ) < 4.2785 * s._ch0 - 1.9548 * s._ch1) := by
  refine ⟨?_, fun _ h => second_branch_pos s._ch0 s._ch1 hne h⟩
  cases hv : s._valid
  · exact ⟨0.0, readLux_convert_invalid s hv, by norm_num⟩
  · exact ⟨_, readLux_convert_valid s hv hne hg ht, spec_lux_nonneg _ _ _ _ hne⟩

/-- C20, at a valid reading with `ch0 = 100`, `ch1 = 100` (ratio 0.5, second
interval), gain code 7 and integration-time code 3: the conversion gives a
finite value that is not negative, and `4.2785*100 - 1.9548*100` is positive. -/
theorem readLux_convert_nonneg_witness :
    (∃ q : ℚ, readLux_convert
        { zeroState with _valid := true, _ch0 := 100, _ch1 := 100, _gain := 7
                         _integrationTime := 3 } = Double.finite q ∧ 0 ≤ q)
      ∧ (0 : ℚ) < 4.2785 * (100 : Nat) - 1.9548 * (100 : Nat) :=
  ⟨(readLux_convert_nonneg
      { zeroState with _valid := true, _ch0 := 100, _ch1 := 100, _gain := 7
                       _integrationTime := 3 } (by decide) (by decide) (by decide)).1,
   (readLux_convert_nonneg
      { zeroState with _valid := true, _ch0 := 100, _ch1 := 100, _gain := 7
                       _integrationTime := 3 } (by decide) (by decide) (by decide)).2
      (by norm_num) (by norm_num)⟩

/-! ### Overflow recovery -/

theorem writeByte_writesTo (w : TwoWire) (s : State) (a v x : Nat) :
    writesTo x (writeByte w s a v).1.trace
      = if a = x then v :: writesTo x s.trace else writesTo x s.trace := by
  rw [writeByte_trace]
  simp only [writesTo]

theorem writeByte_rawReads (w : TwoWire) (s : State) (a v : Nat) :
    rawReads (writeByte w s a v).1.trace = rawReads s.trace := by
  rw [writeByte_trace]
  simp only [rawReads]

theorem setGain_writesTo_ne (w : TwoWire) (s : State) (g x : Nat) (hx : x ≠ LTR329_CONTR) :
    writesTo x (setGain w s g).1.trace = writesTo x s.trace := by
  have h := readByte_writesTo w s LTR329_CONTR s._control x
  unfold setGain
  rcases hr : readByte w s LTR329_CONTR s._control with ⟨s1, c, ok⟩
  rw [hr] at h
  simp only [setGain_coerce] at *
  split <;> simp [writesTo, h, Ne.symm hx]

theorem autoGain_loop_writesTo_ne (w : TwoWire) (fuel chmax x : Nat) (hx : x ≠ LTR329_CONTR) :
    ∀ (l : List (Nat × Nat)) (s s1 : State), autoGain_loop w fuel chmax l s = some s1 →
      writesTo x s1.trace = writesTo x s.trace := by
  intro l
  induction l with
  | nil =>
    intro s s1 h
    simp only [autoGain_loop, Option.some.injEq] at h
    rw [h]
  | cons p rest ih =>
    intro s s1 h
    obtain ⟨limit, gain⟩ := p
    simp only [autoGain_loop] at h
    split at h
    · split at h
      · cases h
      · rename_i s3 r hrd
        simp only [Option.some.injEq] at h
        rw [← h, readData_writesTo w fuel _ s3 r x hrd, setGain_writesTo_ne w _ _ x hx]
    · exact ih s s1 h

theorem autoGain_writesTo_ne (w : TwoWire) (fuel x : Nat) (hx : x ≠ LTR329_CONTR)
    (s s1 : State) (h : autoGain w fuel s = some s1) :
    writesTo x s1.trace = writesTo x s.trace := by
  unfold autoGain at h
  simp only at h
  split at h
  · cases h
  · rename_i s3 r hrd
    rw [autoGain_loop_writesTo_ne w fuel _ x hx _ s3 s1 h,
      readData_writesTo w fuel _ s3 r x hrd, setGain_writesTo_ne w _ _ x hx]

theorem getMeasurementRate_writesTo (w : TwoWire) (s : State) (x : Nat) :
    writesTo x (getMeasurementRate w s).1.trace = writesTo x s.trace := by
  have h := readByte_writesTo w s LTR329_MEAS_RATE 0 x
  unfold getMeasurementRate
  rcases hr : readByte w s LTR329_MEAS_RATE 0 with ⟨s1, st, ok⟩
  rw [hr] at h
  cases ok <;> simpa using h

theorem readLux_rest_writesTo_ne (w : TwoWire) (fuel x : Nat) (hx : x ≠ LTR329_CONTR)
    (s sf : State) (lux : Double) (h : readLux_rest w fuel s = some (sf, lux)) :
    writesTo x sf.trace = writesTo x s.trace := by
  unfold readLux_rest at h
  split at h
  · cases h
  · rename_i s3 hag
    split at h
    · cases h
    · rename_i s4 r4 hrd
      simp only [Option.some.injEq, Prod.mk.injEq] at h
      rw [← h.1, getMeasurementRate_writesTo, readData_writesTo w fuel s3 s4 r4 x hrd,
        autoGain_writesTo_ne w fuel x hx s s3 hag]

theorem or_mod_testBit (c k i : Nat) (hi : i < 8) (hk : k.testBit i = true) :
    (((c ||| k) % 256).testBit i) = true := by
  rw [show (256 : Nat) = 2 ^ 8 from rfl, Nat.testBit_mod_two_pow, Nat.testBit_or, hk]
  simp [hi]

theorem reset_trace (w : TwoWire) (s : State) :
    ∃ r : Nat, r.testBit 1 = true
      ∧ (∀ x : Nat, writesTo x (reset w s).1.trace
          = if LTR329_CONTR = x then r :: writesTo x s.trace else writesTo x s.trace)
      ∧ rawReads (reset w s).1.trace = rawReads s.trace
      ∧ (reset w s).1._integrationTime = s._integrationTime
      ∧ (reset w s).1._measurementRate = s._measurementRate := by
  have h := readByte_writesTo w s LTR329_CONTR s._control
  have hr' := readByte_rawReads w s LTR329_CONTR s._control (by decide)
  have hf := readByte_frame w s LTR329_CONTR s._control
  unfold reset
  rcases hr : readByte w s LTR329_CONTR s._control with ⟨s1, c, ok⟩
  rw [hr] at h hr' hf
  simp only at h hr' hf ⊢
  refine ⟨(c ||| 0x02) % 256, or_mod_testBit c 2 1 (by decide) (by decide), ?_, ?_, ?_, ?_⟩
  · intro x
    rw [writeByte_writesTo]
    simp only [h]
  · rw [writeByte_rawReads]
    exact hr'
  · rw [writeByte_eq, hf]
  · rw [writeByte_eq, hf]

theorem activate_trace (w : TwoWire) (s : State) :
    ∃ a : Nat, a.testBit 0 = true
      ∧ (∀ x : Nat, writesTo x (activate w s).1.trace
          = if LTR329_CONTR = x then a :: writesTo x s.trace else writesTo x s.trace)
      ∧ rawReads (activate w s).1.trace = rawReads s.trace := by
  have h := readByte_writesTo w s LTR329_CONTR s._control
  have hr' := readByte_rawReads w s LTR329_CONTR s._control (by decide)
  unfold activate
  rcases hr : readByte w s LTR329_CONTR s._control with ⟨s1, c, ok⟩
  rw [hr] at h hr'
  simp only at h hr' ⊢
  refine ⟨(c ||| 0x01) % 256, or_mod_testBit c 1 0 (by decide) (by decide), ?_, ?_⟩
  · intro x
    rw [writeByte_writesTo]
    simp only [h]
  · rw [writeByte_rawReads]
    exact hr'

theorem setMeasurementRate_trace (w : TwoWire) (s : State) (it mr x : Nat) :
    writesTo x (setMeasurementRate w s it mr).1.trace
        = (if LTR329_MEAS_RATE = x
            then ((spec_integrationTime it <<< 3) ||| spec_measurementRate mr)
              :: writesTo x s.trace
            else writesTo x s.trace)
      ∧ rawReads (setMeasurementRate w s it mr).1.trace = rawReads s.trace := by
  rw [setMeasurementRate_eq]
  exact ⟨writeByte_writesTo _ _ _ _ _, writeByte_rawReads _ _ _ _⟩

theorem readLux_recover_trace (w : TwoWire) (fuel : Nat) (s s2 : State)
    (h : readLux_recover w fuel s = some s2) :
    writesTo LTR329_MEAS_RATE s2.trace
        = ((spec_integrationTime s._integrationTime <<< 3)
            ||| spec_measurementRate s._measurementRate) :: writesTo LTR329_MEAS_RATE s.trace
      ∧ (∃ r a : Nat, r.testBit 1 = true ∧ a.testBit 0 = true
          ∧ writesTo LTR329_CONTR s2.trace = a :: r :: writesTo LTR329_CONTR s.trace)
      ∧ rawReads s2.trace = rawReads s.trace + 1 := by
  unfold readLux_recover at h
  simp only at h
  split at h
  · cases h
  · rename_i s4 r4 hrd
    simp only [Option.some.injEq] at h
    subst h
    obtain ⟨r, hr1, hrw, hrr, hri, hrm⟩ := reset_trace w s
    obtain ⟨a, ha1, haw, har⟩ := activate_trace w
      (setMeasurementRate w (reset w s).1 (reset w s).1._integrationTime
        (reset w s).1._measurementRate).1
    have hm := setMeasurementRate_trace w (reset w s).1 (reset w s).1._integrationTime
      (reset w s).1._measurementRate
    refine ⟨?_, ⟨r, a, hr1, ha1, ?_⟩, ?_⟩
    · rw [readData_writesTo w fuel _ s4 r4 _ hrd, haw, (hm _).1, hrw, hri, hrm]
      simp [LTR329_CONTR, LTR329_MEAS_RATE]
    · rw [readData_writesTo w fuel _ s4 r4 _ hrd, haw, (hm _).1, hrw]
      simp [LTR329_CONTR, LTR329_MEAS_RATE]
    · rw [readData_rawReads w fuel _ s4 r4 hrd, har, (hm 0).2, hrr]

/-! ### Range of the cached codes -/

theorem gainFieldsRead_suffix (w : TwoWire) (x : List WireOp) :
    ∀ after : List WireOp, x <:+ after → ∀ g ∈ gainFieldAt w x, g ∈ gainFieldsRead w after := by
  intro after
  induction after with
  | nil =>
    intro h g hg
    rw [List.suffix_nil] at h
    subst h
    simp [gainFieldAt] at hg
  | cons op rest ih =>
    intro h g hg
    rw [List.suffix_cons_iff] at h
    simp only [gainFieldsRead, List.mem_append]
    rcases h with h | h
    · left
      rw [← h]
      exact hg
    · right
      exact ih h g hg

theorem deliversLegalGain_of_all (w : TwoWire) (before after : List WireOp)
    (h : ∀ g ∈ gainFieldsRead w after, LegalGain g) : DeliversLegalGain w before after := by
  intro t b _
  constructor
  · intro hsuf hrx
    apply h
    apply gainFieldsRead_suffix w _ after hsuf
    simp [gainFieldAt, hrx]
  · intro hsuf hrx
    apply h
    apply gainFieldsRead_suffix w _ after hsuf
    have hrx1 := hrx
    simp only [LTR329_CONTR] at hrx1
    simp [gainFieldAt, hrx1, LTR329_CONTR, LTR329_STATUS]

theorem DeliversLegalGain.restrict {w : TwoWire} {a a1 c c1 : List WireOp}
    (h : DeliversLegalGain w a c) (h1 : a <:+ a1) (h2 : c1 <:+ c) :
    DeliversLegalGain w a1 c1 := by
  intro t b ht
  exact ⟨fun hs hrx => (h t b (h1.trans ht)).1 (hs.trans h2) hrx,
    fun hs hrx => (h t b (h1.trans ht)).2 (hs.trans h2) hrx⟩

theorem readByte_suffix (w : TwoWire) (s : State) (a v : Nat) :
    s.trace <:+ (readByte w s a v).1.trace := by
  rcases readByte_trace w s a v with h | h <;> rw [h]
  · exact List.suffix_cons _ _
  · exact (List.suffix_cons _ _).trans (List.suffix_cons _ _)

theorem writeByte_suffix (w : TwoWire) (s : State) (a v : Nat) :
    s.trace <:+ (writeByte w s a v).1.trace := by
  rw [writeByte_trace]
  exact List.suffix_cons _ _

theorem readStatus_suffix (w : TwoWire) (s : State) :
    s.trace <:+ (readStatus w s).1.trace := by
  have h := readByte_suffix w s LTR329_STATUS 0
  unfold readStatus
  rcases hr : readByte w s LTR329_STATUS 0 with ⟨s1, st, ok⟩
  rw [hr] at h
  cases ok <;> exact h

theorem getControl_suffix (w : TwoWire) (s : State) :
    s.trace <:+ (getControl w s).1.trace := by
  have h := readByte_suffix w s LTR329_CONTR 0
  unfold getControl
  rcases hr : readByte w s LTR329_CONTR 0 with ⟨s1, st, ok⟩
  rw [hr] at h
  cases ok <;> exact h

theorem getMeasurementRate_suffix (w : TwoWire) (s : State) :
    s.trace <:+ (getMeasurementRate w s).1.trace := by
  have h := readByte_suffix w s LTR329_MEAS_RATE 0
  unfold getMeasurementRate
  rcases hr : readByte w s LTR329_MEAS_RATE 0 with ⟨s1, st, ok⟩
  rw [hr] at h
  cases ok <;> exact h

theorem getPartID_suffix (w : TwoWire) (s : State) :
    s.trace <:+ (getPartID w s).1.trace := by
  have h := readByte_suffix w s LTR329_PART_ID 0
  unfold getPartID
  rcases hr : readByte w s LTR329_PART_ID 0 with ⟨s1, st, ok⟩
  rw [hr] at h
  cases ok <;> exact h

theorem getManufacID_suffix (w : TwoWire) (s : State) :
    s.trace <:+ (getManufacID w s).1.trace := by
  have h := readByte_suffix w s LTR329_MANUFAC_ID 0
  unfold getManufacID
  rcases hr : readByte w s LTR329_MANUFAC_ID 0 with ⟨s1, st, ok⟩
  rw [hr] at h
  cases ok <;> exact h

theorem reset_suffix (w : TwoWire) (s : State) : s.trace <:+ (reset w s).1.trace := by
  have h := readByte_suffix w s LTR329_CONTR s._control
  unfold reset
  rcases hr : readByte w s LTR329_CONTR s._control with ⟨s1, c, ok⟩
  rw [hr] at h
  simp only at h ⊢
  rw [writeByte_trace]
  exact h.trans (List.suffix_cons _ _)

theorem activate_suffix (w : TwoWire) (s : State) : s.trace <:+ (activate w s).1.trace := by
  have h := readByte_suffix w s LTR329_CONTR s._control
  unfold activate
  rcases hr : readByte w s LTR329_CONTR s._control with ⟨s1, c, ok⟩
  rw [hr] at h
  simp only at h ⊢
  rw [writeByte_trace]
  exact h.trans (List.suffix_cons _ _)

theorem setMeasurementRate_suffix (w : TwoWire) (s : State) (it mr : Nat) :
    s.trace <:+ (setMeasurementRate w s it mr).1.trace := by
  rw [setMeasurementRate_eq, writeByte_trace]
  exact List.suffix_cons _ _

theorem pollStatus_suffix (w : TwoWire) :
    ∀ (fuel : Nat) (s s1 : State), pollStatus w fuel s = some s1 → s.trace <:+ s1.trace := by
  intro fuel
  induction fuel with
  | zero => intro s s1 h; simp [pollStatus] at h
  | succ n ih =>
    intro s s1 h
    simp only [pollStatus] at h
    split at h
    · cases h; exact readStatus_suffix w s
    · exact (readStatus_suffix w s).trans (ih _ _ h)

theorem readData_transfer_suffix (w : TwoWire) (s : State) :
    s.trace <:+ (readData_transfer w s).trace := by
  rcases readData_transfer_trace w s with h | h <;> rw [h]
  · exact List.suffix_cons _ _
  · exact (List.suffix_cons _ _).trans (List.suffix_cons _ _)

theorem readData_suffix (w : TwoWire) (fuel : Nat) (s s1 : State) (r : Bool)
    (h : readData w fuel s = some (s1, r)) : s.trace <:+ s1.trace := by
  unfold readData at h
  split at h
  · cases h
  · rename_i sp hp
    have e : s1 = (readStatus w (readData_transfer w sp)).1 := by
      simp only [Option.some.injEq] at h; rw [h]
    rw [e]
    exact ((pollStatus_suffix w fuel s sp hp).trans (readData_transfer_suffix w sp)).trans
      (readStatus_suffix w _)

theorem setGain_suffix (w : TwoWire) (s : State) (g : Nat) :
    s.trace <:+ (setGain w s g).1.trace := by
  have h := readByte_suffix w s LTR329_CONTR s._control
  unfold setGain
  rcases hr : readByte w s LTR329_CONTR s._control with ⟨s1, c, ok⟩
  rw [hr] at h
  simp only [setGain_coerce] at h ⊢
  split
  · refine List.IsSuffix.trans ?_ (getControl_suffix w _)
    rw [writeByte_trace]
    exact h.trans (List.suffix_cons _ _)
  · rw [writeByte_trace]
    exact h.trans (List.suffix_cons _ _)

/-! ### The cached gain code over a device that delivers defined gain codes -/

theorem readByte_true_trace (w : TwoWire) (s s1 : State) (a v x : Nat)
    (h : readByte w s a v = (s1, x, true)) :
    s1.trace = WireOp.requestFrom 1 :: WireOp.endTransmission [a] :: s.trace := by
  unfold readByte at h
  simp only at h
  split at h
  · split at h
    · simp only [Prod.mk.injEq] at h
      rw [← h.1]
    · simp at h
  · simp at h

theorem readStatus_legalGain (w : TwoWire) (s : State)
    (hd : DeliversLegalGain w s.trace (readStatus w s).1.trace) (hs : LegalGain s._gain) :
    LegalGain (readStatus w s).1._gain := by
  have hf := readByte_gain w s LTR329_STATUS 0
  unfold readStatus at hd ⊢
  rcases hr : readByte w s LTR329_STATUS 0 with ⟨s1, st, ok⟩
  rw [hr] at hf hd
  cases ok
  · simp only [Bool.false_eq_true, if_false]
    simp only at hf
    rw [hf]
    exact hs
  · obtain ⟨b, hb, hx⟩ := readByte_true w s s1 LTR329_STATUS 0 st hr
    have ht := readByte_true_trace w s s1 LTR329_STATUS 0 st hr
    simp only [if_true] at hd ⊢
    rw [hx]
    refine LegalGain.mod _ ((hd s.trace b (List.suffix_refl _)).1 ?_ hb)
    rw [ht]

theorem getControl_legalGain (w : TwoWire) (s : State)
    (hd : DeliversLegalGain w s.trace (getControl w s).1.trace) (hs : LegalGain s._gain) :
    LegalGain (getControl w s).1._gain := by
  have hf := readByte_gain w s LTR329_CONTR 0
  unfold getControl at hd ⊢
  rcases hr : readByte w s LTR329_CONTR 0 with ⟨s1, st, ok⟩
  rw [hr] at hf hd
  cases ok
  · simp only [Bool.false_eq_true, if_false]
    simp only at hf
    rw [hf]
    exact hs
  · obtain ⟨b, hb, hx⟩ := readByte_true w s s1 LTR329_CONTR 0 st hr
    have ht := readByte_true_trace w s s1 LTR329_CONTR 0 st hr
    simp only [if_true] at hd ⊢
    rw [hx]
    refine LegalGain.mod _ ((hd s.trace b (List.suffix_refl _)).2 ?_ hb)
    rw [ht]

theorem pollStatus_legalGain (w : TwoWire) :
    ∀ (fuel : Nat) (s s1 : State), LegalGain s._gain → pollStatus w fuel s = some s1 →
      DeliversLegalGain w s.trace s1.trace → LegalGain s1._gain := by
  intro fuel
  induction fuel with
  | zero => intro s s1 _ h; simp [pollStatus] at h
  | succ n ih =>
    intro s s1 hs h hd
    simp only [pollStatus] at h
    split at h
    · simp only [Option.some.injEq] at h
      subst h
      exact readStatus_legalGain w s hd hs
    · have hsuf := pollStatus_suffix w n _ s1 h
      have hr := readStatus_legalGain w s (hd.restrict (List.suffix_refl _) hsuf) hs
      exact ih _ s1 hr h (hd.restrict (readStatus_suffix w s) (List.suffix_refl _))

theorem readData_legalGain (w : TwoWire) (fuel : Nat) (s s1 : State) (r : Bool)
    (hs : LegalGain s._gain) (h : readData w fuel s = some (s1, r))
    (hd : DeliversLegalGain w s.trace s1.trace) : LegalGain s1._gain := by
  unfold readData at h
  split at h
  · cases h
  · rename_i sp hp
    have e : s1 = (readStatus w (readData_transfer w sp)).1 := by
      simp only [Option.some.injEq] at h; rw [h]
    subst e
    have h1 := pollStatus_suffix w fuel s sp hp
    have h2 := readData_transfer_suffix w sp
    have h3 := readStatus_suffix w (readData_transfer w sp)
    have hsp := pollStatus_legalGain w fuel s sp hs hp
      (hd.restrict (List.suffix_refl _) (h2.trans h3))
    apply readStatus_legalGain w _ (hd.restrict (h1.trans h2) (List.suffix_refl _))
    rw [readData_transfer_gain]
    exact hsp

theorem setGain_legalGain (w : TwoWire) (s : State) (g : Nat)
    (hd : DeliversLegalGain w s.trace (setGain w s g).1.trace) (hs : LegalGain s._gain) :
    LegalGain (setGain w s g).1._gain := by
  have hf := readByte_gain w s LTR329_CONTR s._control
  have hsuf := readByte_suffix w s LTR329_CONTR s._control
  unfold setGain at hd ⊢
  rcases hr : readByte w s LTR329_CONTR s._control with ⟨s1, c, ok⟩
  rw [hr] at hf hd hsuf
  simp only [setGain_coerce] at hf hd hsuf ⊢
  split
  · rename_i hok
    rw [if_pos hok] at hd
    apply getControl_legalGain w _ (hd.restrict ?_ (List.suffix_refl _))
    · rw [writeByte_gain]
      exact hf ▸ hs
    · rw [writeByte_trace]
      exact hsuf.trans (List.suffix_cons _ _)
  · rw [writeByte_gain]
    exact hf ▸ hs

theorem getData_legalGain (w : TwoWire) (fuel : Nat) (s s1 : State) (r : Bool)
    (hs : LegalGain s._gain) (h : getData w fuel s = some (s1, r))
    (hd : DeliversLegalGain w s.trace s1.trace) : LegalGain s1._gain := by
  unfold getData at h
  split at h
  · cases h
  · rename_i sp hp
    have q0 := pollStatus_suffix w fuel s sp hp
    rcases hr1 : readByte w sp LTR329_DATA_CH1_0 0 with ⟨t1, u1, ok1⟩
    have g1 := readByte_gain w sp LTR329_DATA_CH1_0 0
    have q1 := readByte_suffix w sp LTR329_DATA_CH1_0 0
    rw [hr1] at g1 q1 h
    simp only at g1 q1 h
    cases ok1
    · simp only [Bool.not_false, if_true, Option.some.injEq, Prod.mk.injEq] at h
      obtain ⟨rfl, _⟩ := h
      rw [g1]
      exact pollStatus_legalGain w fuel s sp hs hp (hd.restrict (List.suffix_refl _) q1)
    · simp only [Bool.not_true, Bool.false_eq_true, if_false] at h
      rcases hr2 : readByte w t1 LTR329_DATA_CH1_1 0 with ⟨t2, v2, ok2⟩
      have g2 := readByte_gain w t1 LTR329_DATA_CH1_1 0
      have q2 := readByte_suffix w t1 LTR329_DATA_CH1_1 0
      rw [hr2] at g2 q2 h
      simp only at g2 q2 h
      cases ok2
      · simp only [Bool.not_false, if_true, Option.some.injEq, Prod.mk.injEq] at h
        obtain ⟨rfl, _⟩ := h
        rw [g2, g1]
        exact pollStatus_legalGain w fuel s sp hs hp
          (hd.restrict (List.suffix_refl _) (q1.trans q2))
      · simp only [Bool.not_true, Bool.false_eq_true, if_false] at h
        rcases hr3 : readByte w { t2 with _ch1 := (u1 ||| (v2 <<< 8)) % 65536 }
          LTR329_DATA_CH0_0 u1 with ⟨t3, u3, ok3⟩
        have g3 := readByte_gain w { t2 with _ch1 := (u1 ||| (v2 <<< 8)) % 65536 }
          LTR329_DATA_CH0_0 u1
        have q3 := readByte_suffix w { t2 with _ch1 := (u1 ||| (v2 <<< 8)) % 65536 }
          LTR329_DATA_CH0_0 u1
        rw [hr3] at g3 q3 h
        simp only at g3 q3 h
        cases ok3
        · simp only [Bool.not_false, if_true, Option.some.injEq, Prod.mk.injEq] at h
          obtain ⟨rfl, _⟩ := h
          rw [g3, g2, g1]
          exact pollStatus_legalGain w fuel s sp hs hp
            (hd.restrict (List.suffix_refl _) ((q1.trans q2).trans q3))
        · simp only [Bool.not_true, Bool.false_eq_true, if_false] at h
          rcases hr4 : readByte w t3 LTR329_DATA_CH0_1 v2 with ⟨t4, v4, ok4⟩
          have g4 := readByte_gain w t3 LTR329_DATA_CH0_1 v2
          have q4 := readByte_suffix w t3 LTR329_DATA_CH0_1 v2
          rw [hr4] at g4 q4 h
          simp only at g4 q4 h
          cases ok4
          · simp only [Bool.not_false, if_true, Option.some.injEq, Prod.mk.injEq] at h
            obtain ⟨rfl, _⟩ := h
            rw [g4, g3, g2, g1]
            exact pollStatus_legalGain w fuel s sp hs hp
              (hd.restrict (List.suffix_refl _) (((q1.trans q2).trans q3).trans q4))
          · simp only [Bool.not_true, Bool.false_eq_true, if_false, Option.some.injEq,
              Prod.mk.injEq] at h
            obtain ⟨rfl, _⟩ := h
            have q5 := readStatus_suffix w { t4 with _ch0 := (u3 ||| (v4 <<< 8)) % 65536 }
            have q04 : s.trace <:+ t4.trace := (((q0.trans q1).trans q2).trans q3).trans q4
            apply readStatus_legalGain w { t4 with _ch0 := (u3 ||| (v4 <<< 8)) % 65536 }
              (hd.restrict q04 (List.suffix_refl _))
            simp only
            rw [g4, g3, g2, g1]
            exact pollStatus_legalGain w fuel s sp hs hp
              (hd.restrict (List.suffix_refl _)
                ((((q1.trans q2).trans q3).trans q4).trans q5))

theorem autoGain_loop_suffix (w : TwoWire) (fuel chmax : Nat) :
    ∀ (l : List (Nat × Nat)) (s s1 : State), autoGain_loop w fuel chmax l s = some s1 →
      s.trace <:+ s1.trace := by
  intro l
  induction l with
  | nil =>
    intro s s1 h
    simp only [autoGain_loop, Option.some.injEq] at h
    rw [h]
  | cons p rest ih =>
    intro s s1 h
    obtain ⟨limit, gain⟩ := p
    simp only [autoGain_loop] at h
    split at h
    · split at h
      · cases h
      · rename_i s3 r hrd
        simp only [Option.some.injEq] at h
        rw [← h]
        exact (setGain_suffix w { s with _gain := gain } gain).trans
          (readData_suffix w fuel _ s3 r hrd)
    · exact ih s s1 h

theorem autoGain_suffix (w : TwoWire) (fuel : Nat) (s s1 : State)
    (h : autoGain w fuel s = some s1) : s.trace <:+ s1.trace := by
  unfold autoGain at h
  simp only at h
  split at h
  · cases h
  · rename_i s3 r hrd
    exact ((setGain_suffix w { s with _gain := gain_1 } gain_1).trans
      (readData_suffix w fuel _ s3 r hrd)).trans (autoGain_loop_suffix w fuel _ _ s3 s1 h)

theorem readLux_recover_suffix (w : TwoWire) (fuel : Nat) (s s1 : State)
    (h : readLux_recover w fuel s = some s1) : s.trace <:+ s1.trace := by
  unfold readLux_recover at h
  simp only at h
  split at h
  · cases h
  · rename_i s4 r hrd
    simp only [Option.some.injEq] at h
    rw [← h]
    exact (((reset_suffix w s).trans (setMeasurementRate_suffix w _ _ _)).trans
      (activate_suffix w _)).trans (readData_suffix w fuel _ s4 r hrd)

theorem autoGain_loop_legalGain (w : TwoWire) (fuel chmax : Nat) :
    ∀ (l : List (Nat × Nat)) (s s1 : State), (∀ p ∈ l, LegalGain p.2) → LegalGain s._gain →
      autoGain_loop w fuel chmax l s = some s1 → DeliversLegalGain w s.trace s1.trace →
      LegalGain s1._gain := by
  intro l
  induction l with
  | nil =>
    intro s s1 _ hs h _
    simp only [autoGain_loop, Option.some.injEq] at h
    exact h ▸ hs
  | cons p rest ih =>
    intro s s1 hl hs h hd
    obtain ⟨limit, gain⟩ := p
    simp only [autoGain_loop] at h
    split at h
    · have hg : LegalGain gain := hl (limit, gain) (List.mem_cons_self _ _)
      split at h
      · cases h
      · rename_i s3 r hrd
        simp only [Option.some.injEq] at h
        subst h
        have q1 := setGain_suffix w { s with _gain := gain } gain
        have q2 := readData_suffix w fuel _ s3 r hrd
        exact readData_legalGain w fuel _ s3 r
          (setGain_legalGain w { s with _gain := gain } gain
            (hd.restrict (List.suffix_refl _) q2) hg) hrd
          (hd.restrict q1 (List.suffix_refl _))
    · exact ih s s1 (fun q hq => hl q (List.mem_cons_of_mem _ hq)) hs h hd

theorem autoGain_legalGain (w : TwoWire) (fuel : Nat) (s s1 : State)
    (h : autoGain w fuel s = some s1) (hd : DeliversLegalGain w s.trace s1.trace) :
    LegalGain s1._gain := by
  unfold autoGain at h
  simp only at h
  split at h
  · cases h
  · rename_i s3 r hrd
    have q1 := setGain_suffix w { s with _gain := gain_1 } gain_1
    have q2 := readData_suffix w fuel _ s3 r hrd
    have q3 := autoGain_loop_suffix w fuel _ _ s3 s1 h
    have h3 : LegalGain s3._gain :=
      readData_legalGain w fuel _ s3 r
        (setGain_legalGain w { s with _gain := gain_1 } gain_1
          (hd.restrict (List.suffix_refl _) (q2.trans q3)) legalGain_zero) hrd
        (hd.restrict q1 q3)
    refine autoGain_loop_legalGain w fuel _ _ s3 s1 ?_ h3 h (hd.restrict (q1.trans q2)
      (List.suffix_refl _))
    decide

theorem readLux_legalGain (w : TwoWire) (fuel : Nat) (s s1 : State) (lux : Double)
    (hs : LegalGain s._gain) (h : readLux w fuel s = some (s1, lux))
    (hd : DeliversLegalGain w s.trace s1.trace) : LegalGain s1._gain := by
  unfold readLux at h
  simp only at h
  split at h
  · cases h
  · rename_i t1 ok hrd
    have q1 := readData_suffix w fuel s t1 ok hrd
    split at h
    · simp only [Option.some.injEq, Prod.mk.injEq] at h
      obtain ⟨rfl, _⟩ := h
      exact readData_legalGain w fuel s t1 ok hs hrd hd
    · split at h
      · cases h
      · rename_i t2 hrec
        have q2 : t1.trace <:+ t2.trace := by
          split at hrec
          · exact readLux_recover_suffix w fuel t1 t2 hrec
          · simp only [Option.some.injEq] at hrec
            rw [hrec]
        split at h
        · cases h
        · rename_i t3 hag
          have q3 := autoGain_suffix w fuel t2 t3 hag
          split at h
          · cases h
          · rename_i t4 r4 hrd4
            have q4 := readData_suffix w fuel t3 t4 r4 hrd4
            have q5 := getMeasurementRate_suffix w t4
            simp only [Option.some.injEq, Prod.mk.injEq] at h
            obtain ⟨rfl, _⟩ := h
            rw [getMeasurementRate_gain]
            have h3 := autoGain_legalGain w fuel t2 t3 hag
              (hd.restrict (q1.trans q2) (q4.trans q5))
            exact readData_legalGain w fuel t3 t4 r4 h3 hrd4
              (hd.restrict ((q1.trans q2).trans q3) q5)

theorem begin_legalGain (w : TwoWire) (fuel : Nat) (s s1 : State) (r : Bool)
    (h : begin w fuel s = some (s1, r)) (hd : DeliversLegalGain w s.trace s1.trace) :
    LegalGain s1._gain := by
  unfold begin at h
  simp only at h
  have h2 : LegalGain (getManufacID w (getPartID w
      { s with _gain := 0, _valid := true, _newData := false }).1).1._gain := by
    rw [getManufacID_gain, getPartID_gain]
    exact legalGain_zero
  have q2 : s.trace <:+ (getManufacID w (getPartID w
      { s with _gain := 0, _valid := true, _newData := false }).1).1.trace :=
    (getPartID_suffix w { s with _gain := 0, _valid := true, _newData := false }).trans
      (getManufacID_suffix w _)
  split at h
  · split at h
    · cases h
    · rename_i s5 r5 hrd
      simp only [Option.some.injEq, Prod.mk.injEq] at h
      obtain ⟨rfl, _⟩ := h
      refine readData_legalGain w fuel _ s5 r5 ?_ hrd
        (hd.restrict ((q2.trans (reset_suffix w _)).trans (activate_suffix w _))
          (List.suffix_refl _))
      rw [activate_gain, reset_gain]
      exact h2
  · simp only [Option.some.injEq, Prod.mk.injEq] at h
    rw [← h.1]
    exact h2

/-- C8 as amended: after `begin`, and after every public operation started
with a cached gain code in {0,1,2,3,6,7}, the cached gain code is in
{0,1,2,3,6,7}, provided every status byte and every control byte the device
delivered during the operation carries a defined gain code in its gain field;
the gain multiplier `readLux` looks up is then not the reserved 0.0 entry. -/
theorem gain_invariant (w : TwoWire) (fuel : Nat) (s : State) (g : Nat) :
    (∀ (s1 : State) (r : Bool), begin w fuel s = some (s1, r) →
        DeliversLegalGain w s.trace s1.trace → LegalGain s1._gain)
      ∧ (LegalGain s._gain →
          (DeliversLegalGain w s.trace (setGain w s g).1.trace →
            LegalGain (setGain w s g).1._gain)
          ∧ (DeliversLegalGain w s.trace (getControl w s).1.trace →
            LegalGain (getControl w s).1._gain)
          ∧ (DeliversLegalGain w s.trace (readStatus w s).1.trace →
            LegalGain (readStatus w s).1._gain)
          ∧ (∀ (s1 : State) (r : Bool), getData w fuel s = some (s1, r) →
              DeliversLegalGain w s.trace s1.trace → LegalGain s1._gain)
          ∧ (∀ (s1 : State) (r : Bool), readData w fuel s = some (s1, r) →
              DeliversLegalGain w s.trace s1.trace → LegalGain s1._gain)
          ∧ (∀ s1 : State, autoGain w fuel s = some s1 →
              DeliversLegalGain w s.trace s1.trace → LegalGain s1._gain)
          ∧ (∀ (s1 : State) (lux : Double), readLux w fuel s = some (s1, lux) →
              DeliversLegalGain w s.trace s1.trace →
              LegalGain s1._gain ∧ ∃ gf : ℚ, _gainfactor[s1._gain]? = some gf ∧ gf ≠ 0)) := by
  refine ⟨fun s1 r h hd => begin_legalGain w fuel s s1 r h hd, fun hs =>
    ⟨fun hd => setGain_legalGain w s g hd hs, fun hd => getControl_legalGain w s hd hs,
      fun hd => readStatus_legalGain w s hd hs,
      fun s1 r h hd => getData_legalGain w fuel s s1 r hs h hd,
      fun s1 r h hd => readData_legalGain w fuel s s1 r hs h hd,
      fun s1 h hd => autoGain_legalGain w fuel s s1 h hd, ?_⟩⟩
  intro s1 lux h hd
  have hl := readLux_legalGain w fuel s s1 lux hs h hd
  exact ⟨hl, legalGain_gainfactor _ hl⟩

/-- C8 as amended, on the register-file sensor with status byte 0x04 and
channels 500 and 100, from the zero state: `setGain 7` reads back and caches
gain code 7, and `begin` and `readLux` return with a defined gain code; all
status and control bytes delivered in these runs carry defined gain codes. -/
theorem gain_invariant_witness :
    ((setGain (sensor 0x04 500 100) zeroState 7).1._gain = 7
      ∧ LegalGain (setGain (sensor 0x04 500 100) zeroState 7).1._gain)
    ∧ (begin (sensor 0x04 500 100) 1 zeroState).map (fun r => decide (LegalGain r.1._gain))
        = some true
    ∧ (readLux (sensor 0x04 500 100) 1 zeroState).map (fun r => decide (LegalGain r.1._gain))
        = some true := by
  refine ⟨⟨by decide, ?_⟩, ?_, ?_⟩
  · exact ((gain_invariant (sensor 0x04 500 100) 1 zeroState 7).2 (by decide)).1
      (deliversLegalGain_of_all _ _ _ (by decide))
  · cases h : begin (sensor 0x04 500 100) 1 zeroState with
    | none => exact absurd h (by decide)
    | some r =>
      have h2 : (begin (sensor 0x04 500 100) 1 zeroState).map
          (fun (r : State × Bool) => decide (∀ g ∈ gainFieldsRead (sensor 0x04 500 100) r.1.trace, LegalGain g))
          = some true := by decide
      rw [h] at h2
      simp only [Option.map_some', Option.some.injEq, decide_eq_true_eq] at h2
      have h3 := (gain_invariant (sensor 0x04 500 100) 1 zeroState 7).1 r.1 r.2 h
        (deliversLegalGain_of_all _ _ _ h2)
      simp only [Option.map_some', Option.some.injEq, decide_eq_true_eq]
      exact h3
  · cases h : readLux (sensor 0x04 500 100) 1 zeroState with
    | none => exact absurd h (by decide)
    | some r =>
      have h2 : (readLux (sensor 0x04 500 100) 1 zeroState).map
          (fun (r : State × Double) => decide (∀ g ∈ gainFieldsRead (sensor 0x04 500 100) r.1.trace, LegalGain g))
          = some true := by decide
      rw [h] at h2
      simp only [Option.map_some', Option.some.injEq, decide_eq_true_eq] at h2
      have h3 := ((gain_invariant (sensor 0x04 500 100) 1 zeroState 7).2 (by decide)).2.2.2.2.2.2
        r.1 r.2 h (deliversLegalGain_of_all _ _ _ h2)
      simp only [Option.map_some', Option.some.injEq, decide_eq_true_eq]
      exact h3.1

/-! ### Order of register writes and raw reads -/

theorem readByte_busEvents (w : TwoWire) (s : State) (a v : Nat) (h : a ≠ LTR329_DATA_CH1_0) :
    busEvents (readByte w s a v).1.trace = busEvents s.trace := by
  rcases readByte_trace w s a v with h' | h' <;> rw [h'] <;> simp [busEvents, h]

theorem writeByte_busEvents (w : TwoWire) (s : State) (a v : Nat) :
    busEvents (writeByte w s a v).1.trace
      = WireOp.endTransmission [a, v] :: busEvents s.trace := by
  rw [writeByte_trace]
  simp only [busEvents]

theorem readStatus_busEvents (w : TwoWire) (s : State) :
    busEvents (readStatus w s).1.trace = busEvents s.trace := by
  have h := readByte_busEvents w s LTR329_STATUS 0 (by decide)
  unfold readStatus
  rcases hr : readByte w s LTR329_STATUS 0 with ⟨s1, st, ok⟩
  rw [hr] at h
  cases ok <;> exact h

theorem getControl_busEvents (w : TwoWire) (s : State) :
    busEvents (getControl w s).1.trace = busEvents s.trace := by
  have h := readByte_busEvents w s LTR329_CONTR 0 (by decide)
  unfold getControl
  rcases hr : readByte w s LTR329_CONTR 0 with ⟨s1, st, ok⟩
  rw [hr] at h
  cases ok <;> exact h

theorem getMeasurementRate_busEvents (w : TwoWire) (s : State) :
    busEvents (getMeasurementRate w s).1.trace = busEvents s.trace := by
  have h := readByte_busEvents w s LTR329_MEAS_RATE 0 (by decide)
  unfold getMeasurementRate
  rcases hr : readByte w s LTR329_MEAS_RATE 0 with ⟨s1, st, ok⟩
  rw [hr] at h
  cases ok <;> exact h

theorem pollStatus_busEvents (w : TwoWire) :
    ∀ (fuel : Nat) (s s1 : State), pollStatus w fuel s = some s1 →
      busEvents s1.trace = busEvents s.trace := by
  intro fuel
  induction fuel with
  | zero => intro s s1 h; simp [pollStatus] at h
  | succ n ih =>
    intro s s1 h
    simp only [pollStatus] at h
    split at h
    · cases h; exact readStatus_busEvents w s
    · rw [ih _ _ h, readStatus_busEvents]

theorem readData_transfer_busEvents (w : TwoWire) (s : State) :
    busEvents (readData_transfer w s).trace
      = WireOp.endTransmission [LTR329_DATA_CH1_0] :: busEvents s.trace := by
  rcases readData_transfer_trace w s with h | h <;> rw [h] <;> simp [busEvents]

theorem readData_busEvents (w : TwoWire) (fuel : Nat) (s s1 : State) (r : Bool)
    (h : readData w fuel s = some (s1, r)) :
    busEvents s1.trace = WireOp.endTransmission [LTR329_DATA_CH1_0] :: busEvents s.trace := by
  unfold readData at h
  split at h
  · cases h
  · rename_i sp hp
    have e : s1 = (readStatus w (readData_transfer w sp)).1 := by
      simp only [Option.some.injEq] at h; rw [h]
    rw [e, readStatus_busEvents, readData_transfer_busEvents,
      pollStatus_busEvents w fuel s sp hp]

theorem setGain_busEvents (w : TwoWire) (s : State) (g : Nat) :
    busEvents (setGain w s g).1.trace
      = WireOp.endTransmission
          [LTR329_CONTR, setGain_byte (readByte w s LTR329_CONTR s._control).2.1 g]
        :: busEvents s.trace := by
  have h := readByte_busEvents w s LTR329_CONTR s._control (by decide)
  unfold setGain
  rcases hr : readByte w s LTR329_CONTR s._control with ⟨s1, c, ok⟩
  rw [hr] at h
  simp only [setGain_coerce] at *
  split
  · rw [getControl_busEvents, writeByte_busEvents, h]
    rfl
  · rw [writeByte_busEvents, h]
    rfl

theorem reset_busEvents (w : TwoWire) (s : State) :
    ∃ r : Nat, r.testBit 1 = true
      ∧ busEvents (reset w s).1.trace
          = WireOp.endTransmission [LTR329_CONTR, r] :: busEvents s.trace := by
  have h := readByte_busEvents w s LTR329_CONTR s._control (by decide)
  unfold reset
  rcases hr : readByte w s LTR329_CONTR s._control with ⟨s1, c, ok⟩
  rw [hr] at h
  simp only at h ⊢
  exact ⟨(c ||| 0x02) % 256, or_mod_testBit c 2 1 (by decide) (by decide),
    by rw [writeByte_busEvents, h]⟩

theorem activate_busEvents (w : TwoWire) (s : State) :
    ∃ a : Nat, a.testBit 0 = true
      ∧ busEvents (activate w s).1.trace
          = WireOp.endTransmission [LTR329_CONTR, a] :: busEvents s.trace := by
  have h := readByte_busEvents w s LTR329_CONTR s._control (by decide)
  unfold activate
  rcases hr : readByte w s LTR329_CONTR s._control with ⟨s1, c, ok⟩
  rw [hr] at h
  simp only at h ⊢
  exact ⟨(c ||| 0x01) % 256, or_mod_testBit c 1 0 (by decide) (by decide),
    by rw [writeByte_busEvents, h]⟩

theorem setMeasurementRate_busEvents (w : TwoWire) (s : State) (it mr : Nat) :
    busEvents (setMeasurementRate w s it mr).1.trace
      = WireOp.endTransmission
          [LTR329_MEAS_RATE, (spec_integrationTime it <<< 3) ||| spec_measurementRate mr]
        :: busEvents s.trace := by
  rw [setMeasurementRate_eq, writeByte_busEvents]

theorem readLux_recover_busEvents (w : TwoWire) (fuel : Nat) (s s2 : State)
    (h : readLux_recover w fuel s = some s2) :
    ∃ r a : Nat, r.testBit 1 = true ∧ a.testBit 0 = true
      ∧ busEvents s2.trace
          = [WireOp.endTransmission [LTR329_DATA_CH1_0],
             WireOp.endTransmission [LTR329_CONTR, a],
             WireOp.endTransmission [LTR329_MEAS_RATE,
               (spec_integrationTime s._integrationTime <<< 3)
                 ||| spec_measurementRate s._measurementRate],
             WireOp.endTransmission [LTR329_CONTR, r]] ++ busEvents s.trace := by
  unfold readLux_recover at h
  simp only at h
  split at h
  · cases h
  · rename_i s4 r4 hrd
    simp only [Option.some.injEq] at h
    subst h
    obtain ⟨r, hr1, hrw⟩ := reset_busEvents w s
    obtain ⟨_, _, _, _, hri, hrm⟩ := reset_trace w s
    obtain ⟨a, ha1, haw⟩ := activate_busEvents w
      (setMeasurementRate w (reset w s).1 (reset w s).1._integrationTime
        (reset w s).1._measurementRate).1
    refine ⟨r, a, hr1, ha1, ?_⟩
    rw [readData_busEvents w fuel _ s4 r4 hrd, haw, setMeasurementRate_busEvents, hrw, hri, hrm]
    rfl

theorem autoGain_loop_busEvents (w : TwoWire) (fuel chmax : Nat) :
    ∀ (l : List (Nat × Nat)) (s s1 : State), autoGain_loop w fuel chmax l s = some s1 →
      ∃ evs : List WireOp, busEvents s1.trace = evs ++ busEvents s.trace := by
  intro l
  induction l with
  | nil =>
    intro s s1 h
    simp only [autoGain_loop, Option.some.injEq] at h
    exact ⟨[], by rw [h]; rfl⟩
  | cons p rest ih =>
    intro s s1 h
    obtain ⟨limit, gain⟩ := p
    simp only [autoGain_loop] at h
    split at h
    · split at h
      · cases h
      · rename_i s3 r hrd
        simp only [Option.some.injEq] at h
        subst h
        refine ⟨[WireOp.endTransmission [LTR329_DATA_CH1_0], WireOp.endTransmission
          [LTR329_CONTR, setGain_byte (readByte w { s with _gain := gain }
            LTR329_CONTR s._control).2.1 gain]], ?_⟩
        rw [readData_busEvents w fuel _ s3 r hrd, setGain_busEvents]
        rfl
    · exact ih s s1 h

theorem autoGain_busEvents (w : TwoWire) (fuel : Nat) (s s1 : State)
    (h : autoGain w fuel s = some s1) :
    ∃ (evs : List WireOp) (v0 : Nat), (v0 >>> 2) &&& 7 = 0
      ∧ busEvents s1.trace
          = evs ++ WireOp.endTransmission [LTR329_DATA_CH1_0]
              :: WireOp.endTransmission [LTR329_CONTR, v0] :: busEvents s.trace := by
  unfold autoGain at h
  simp only at h
  split at h
  · cases h
  · rename_i s3 r hrd
    obtain ⟨evs, he⟩ := autoGain_loop_busEvents w fuel _ _ s3 s1 h
    refine ⟨evs, setGain_byte (readByte w { s with _gain := gain_1 }
      LTR329_CONTR s._control).2.1 gain_1, ?_, ?_⟩
    · rw [setGain_byte_gain]
      rfl
    · rw [he, readData_busEvents w fuel _ s3 r hrd, setGain_busEvents]

theorem readLux_rest_busEvents (w : TwoWire) (fuel : Nat) (s sf : State) (lux : Double)
    (h : readLux_rest w fuel s = some (sf, lux)) :
    ∃ (evs : List WireOp) (v0 : Nat), (v0 >>> 2) &&& 7 = 0
      ∧ busEvents sf.trace
          = evs ++ WireOp.endTransmission [LTR329_DATA_CH1_0]
              :: WireOp.endTransmission [LTR329_CONTR, v0] :: busEvents s.trace := by
  unfold readLux_rest at h
  split at h
  · cases h
  · rename_i s3 hag
    split at h
    · cases h
    · rename_i s4 r4 hrd
      simp only [Option.some.injEq, Prod.mk.injEq] at h
      obtain ⟨evs, v0, hv, he⟩ := autoGain_busEvents w fuel s s3 hag
      refine ⟨WireOp.endTransmission [LTR329_DATA_CH1_0] :: evs, v0, hv, ?_⟩
      rw [← h.1, getMeasurementRate_busEvents, readData_busEvents w fuel s3 s4 r4 hrd, he]
      rfl

/-- C19 as amended: after a first raw read that returns true in state `s1`,
`readLux` runs the recovery sequence exactly when the validity flag is false
and the cached gain code is non-zero, and in both cases goes on with
`autoGain`.  The recovery sequence is, in this order: a write to CONTROL with
the reset bit, the write of `(it' << 3) | mr'` to MEAS_RATE, a write to
CONTROL with the active bit, one raw read; `it'` and `mr'` are the codes
cached in `s1` after the coercion of `setMeasurementRate` (above 7: 0 and 3),
so the byte is `(it << 3) | mr` when both codes are in 0..7.  In the whole
call the first raw read is followed by the recovery sequence (when it runs),
then by the write of gain code 0 to CONTROL and the raw read that open
`autoGain`; MEAS_RATE is written only by the recovery sequence. -/
theorem readLux_recovery (w : TwoWire) (fuel : Nat) (s s1 : State)
    (h1 : readData w fuel s = some (s1, true)) :
    ((s1._valid = false ∧ s1._gain ≠ 0) →
        readLux w fuel s = (readLux_recover w fuel s1).bind (readLux_rest w fuel))
      ∧ (¬ (s1._valid = false ∧ s1._gain ≠ 0) → readLux w fuel s = readLux_rest w fuel s1)
      ∧ (∀ s2 : State, readLux_rest w fuel s2
          = (autoGain w fuel s2).bind (fun s3 => (readData w fuel s3).map (fun r =>
              ((getMeasurementRate w r.1).1, readLux_convert (getMeasurementRate w r.1).1))))
      ∧ (∀ s2 : State, readLux_recover w fuel s1 = some s2 →
          writesTo LTR329_MEAS_RATE s2.trace
              = ((spec_integrationTime s1._integrationTime <<< 3)
                  ||| spec_measurementRate s1._measurementRate)
                :: writesTo LTR329_MEAS_RATE s1.trace
            ∧ (∃ r a : Nat, r.testBit 1 = true ∧ a.testBit 0 = true
                ∧ writesTo LTR329_CONTR s2.trace = a :: r :: writesTo LTR329_CONTR s1.trace)
            ∧ rawReads s2.trace = rawReads s1.trace + 1)
      ∧ (s1._integrationTime ≤ 7 → s1._measurementRate ≤ 7 →
          (spec_integrationTime s1._integrationTime <<< 3)
              ||| spec_measurementRate s1._measurementRate
            = (s1._integrationTime <<< 3) ||| s1._measurementRate)
      ∧ (∀ (sf : State) (lux : Double), readLux w fuel s = some (sf, lux) →
          writesTo LTR329_MEAS_RATE sf.trace
            = if s1._valid = false ∧ s1._gain ≠ 0 then
                ((spec_integrationTime s1._integrationTime <<< 3)
                    ||| spec_measurementRate s1._measurementRate)
                  :: writesTo LTR329_MEAS_RATE s.trace
              else writesTo LTR329_MEAS_RATE s.trace)
      ∧ (∀ s2 : State, readLux_recover w fuel s1 = some s2 →
          ∃ r a : Nat, r.testBit 1 = true ∧ a.testBit 0 = true
            ∧ busEvents s2.trace
                = [WireOp.endTransmission [0x88], WireOp.endTransmission [0x80, a],
                   WireOp.endTransmission [0x85,
                     (spec_integrationTime s1._integrationTime <<< 3)
                       ||| spec_measurementRate s1._measurementRate],
                   WireOp.endTransmission [0x80, r]] ++ busEvents s1.trace)
      ∧ (∀ (sf : State) (lux : Double), readLux w fuel s = some (sf, lux) →
          ∃ (evs rec : List WireOp) (v0 : Nat), (v0 >>> 2) &&& 7 = 0
            ∧ busEvents sf.trace
                = evs ++ WireOp.endTransmission [0x88] :: WireOp.endTransmission [0x80, v0]
                    :: (rec ++ WireOp.endTransmission [0x88] :: busEvents s.trace)
            ∧ ((s1._valid = false ∧ s1._gain ≠ 0
                  ∧ ∃ r a : Nat, r.testBit 1 = true ∧ a.testBit 0 = true
                    ∧ rec = [WireOp.endTransmission [0x88], WireOp.endTransmission [0x80, a],
                        WireOp.endTransmission [0x85,
                          (spec_integrationTime s1._integrationTime <<< 3)
                            ||| spec_measurementRate s1._measurementRate],
                        WireOp.endTransmission [0x80, r]])
                ∨ (¬ (s1._valid = false ∧ s1._gain ≠ 0) ∧ rec = []))) := by
  have hrest : ∀ s2 : State, readLux_rest w fuel s2
      = (autoGain w fuel s2).bind (fun s3 => (readData w fuel s3).map (fun r =>
          ((getMeasurementRate w r.1).1, readLux_convert (getMeasurementRate w r.1).1))) := by
    intro s2
    unfold readLux_rest
    cases autoGain w fuel s2 with
    | none => rfl
    | some s3 =>
      simp only [Option.some_bind]
      cases readData w fuel s3 <;> rfl
  have hflow : readLux w fuel s
      = (if (!s1._valid && s1._gain != 0) = true then readLux_recover w fuel s1
          else some s1).bind (readLux_rest w fuel) := by
    unfold readLux
    simp only [h1, Bool.not_true, Bool.false_eq_true, if_false]
    cases (if (!s1._valid && s1._gain != 0) = true then readLux_recover w fuel s1
        else some s1) with
    | none => rfl
    | some s2 =>
      simp only [Option.some_bind]
      unfold readLux_rest
      rfl
  have hcond : ((!s1._valid && s1._gain != 0) = true) ↔ (s1._valid = false ∧ s1._gain ≠ 0) := by
    cases s1._valid <;> simp
  have hrec : (s1._valid = false ∧ s1._gain ≠ 0) →
      readLux w fuel s = (readLux_recover w fuel s1).bind (readLux_rest w fuel) := by
    intro hc
    rw [hflow, if_pos (hcond.mpr hc)]
  have hnorec : ¬ (s1._valid = false ∧ s1._gain ≠ 0) →
      readLux w fuel s = readLux_rest w fuel s1 := by
    intro hc
    rw [hflow, if_neg (fun h => hc (hcond.mp h))]
    rfl
  refine ⟨hrec, hnorec, hrest, fun s2 h => readLux_recover_trace w fuel s1 s2 h, ?_, ?_,
    fun s2 h => readLux_recover_busEvents w fuel s1 s2 h, ?_⟩
  · intro hi hm
    unfold spec_integrationTime spec_measurementRate
    rw [if_neg (by omega), if_neg (by omega)]
  · intro sf lux h
    have hs1 := readData_writesTo w fuel s s1 true LTR329_MEAS_RATE h1
    by_cases hc : s1._valid = false ∧ s1._gain ≠ 0
    · rw [if_pos hc]
      rw [hrec hc] at h
      cases hr : readLux_recover w fuel s1 with
      | none => rw [hr] at h; cases h
      | some s2 =>
        rw [hr, Option.some_bind] at h
        rw [readLux_rest_writesTo_ne w fuel _ (by decide) s2 sf lux h,
          (readLux_recover_trace w fuel s1 s2 hr).1, hs1]
    · rw [if_neg hc]
      rw [hnorec hc] at h
      rw [readLux_rest_writesTo_ne w fuel _ (by decide) s1 sf lux h, hs1]
  · intro sf lux h
    have hs1 := readData_busEvents w fuel s s1 true h1
    by_cases hc : s1._valid = false ∧ s1._gain ≠ 0
    · rw [hrec hc] at h
      cases hr : readLux_recover w fuel s1 with
      | none => rw [hr] at h; cases h
      | some s2 =>
        rw [hr, Option.some_bind] at h
        obtain ⟨evs, v0, hv, he⟩ := readLux_rest_busEvents w fuel s2 sf lux h
        obtain ⟨r, a, hr1, ha1, hb⟩ := readLux_recover_busEvents w fuel s1 s2 hr
        refine ⟨evs, _, v0, hv, ?_, Or.inl ⟨hc.1, hc.2, r, a, hr1, ha1, rfl⟩⟩
        rw [he, hb, hs1]
        rfl
    · rw [hnorec hc] at h
      obtain ⟨evs, v0, hv, he⟩ := readLux_rest_busEvents w fuel s1 sf lux h
      refine ⟨evs, [], v0, hv, ?_, Or.inr ⟨hc, rfl⟩⟩
      rw [he, hs1]
      rfl

/-- C19 as amended, on a register-file sensor whose status byte is 0x94 (new
data, invalid, gain code 1), called with cached integration-time code 1 and
measurement-rate code 3: `readLux` returns, the only byte it writes to
MEAS_RATE is 0x0B, and its register writes and raw reads are, oldest first:
raw read; reset, MEAS_RATE, activate, raw read; gain 0, raw read, gain 7, raw
read; final raw read. -/
theorem readLux_recovery_witness :
    (readLux (sensor 0x94 100 100) 1
        { zeroState with _integrationTime := 1, _measurementRate := 3 }).map
        (fun r => writesTo LTR329_MEAS_RATE r.1.trace)
      = some [0x0B]
    ∧ (readLux (sensor 0x94 100 100) 1
        { zeroState with _integrationTime := 1, _measurementRate := 3 }).map
        (fun r => (busEvents r.1.trace).reverse)
      = some [.endTransmission [0x88],
          .endTransmission [0x80, 0x02], .endTransmission [0x85, 0x0B],
          .endTransmission [0x80, 0x03], .endTransmission [0x88],
          .endTransmission [0x80, 0x03], .endTransmission [0x88],
          .endTransmission [0x80, 0x1F], .endTransmission [0x88],
          .endTransmission [0x88]] := by
  constructor
  · cases h : readLux (sensor 0x94 100 100) 1
        { zeroState with _integrationTime := 1, _measurementRate := 3 } with
    | none => exact absurd h (by decide)
    | some r =>
      have h2 := (readLux_recovery (sensor 0x94 100 100) 1
        { zeroState with _integrationTime := 1, _measurementRate := 3 }
        { zeroState with _integrationTime := 1, _measurementRate := 3, _ch0 := 100, _ch1 := 100
                         _gain := 1, _newData := true
                         trace := [.requestFrom 1, .endTransmission [0x8C], .requestFrom 4,
                           .endTransmission [0x88], .requestFrom 1, .endTransmission [0x8C]] }
        (by decide)).2.2.2.2.2.1 r.1 r.2 h
      rw [Option.map_some', h2]
      decide
  · decide

/-- C19, refuted for cached codes above 7: on the same sensor, called with
cached integration-time code 9 and measurement-rate code 200, the first raw
read returns true with validity false and gain code 1, the recovery runs, and
the byte written to MEAS_RATE is 0x03, not `(9 << 3) | 200`, which is 200. -/
theorem readLux_recovery_coerces :
    (readData (sensor 0x94 100 100) 1
        { zeroState with _integrationTime := 9, _measurementRate := 200 }).map
        (fun r => (r.2, r.1._valid, r.1._gain, r.1._integrationTime, r.1._measurementRate))
      = some (true, false, 1, 9, 200)
    ∧ (readLux (sensor 0x94 100 100) 1
        { zeroState with _integrationTime := 9, _measurementRate := 200 }).map
        (fun r => writesTo LTR329_MEAS_RATE r.1.trace)
      = some [0x03]
    ∧ ((9 <<< 3) ||| 200) % 256 = 200 := by
  decide

/-! ### Range of the cached codes: what establishes it -/

end LTR329
